import Mathlib

/-!
Verification of the pivot-table subsystem of the excelize spreadsheet
library.  The Go source (`pivotTable.go`) is shallowly embedded below:
pure helpers become Lean functions, the mutable `*File` receiver becomes an
explicit `File` state record that operations thread through, Go `error`
results become `Except Err` / `Option Err`, and Go strings are `String`
with character-list operations mirroring the `strings` package functions
used by the source.  Leaf utilities that live outside the embedded file
(cell-reference parsing, relationship bookkeeping, the package part store)
are modelled from the specification document and are marked as such in
their doc comments.
-/

namespace Excelize

/-! ## String helpers mirroring the Go `strings` package -/

/-- Splits a character list at every occurrence of `sep`, mirroring Go
`strings.Split` (the empty list yields one empty part). -/
def splitOnChar (sep : Char) : List Char → List (List Char)
  | [] => [[]]
  | c :: cs =>
    let r := splitOnChar sep cs
    if c = sep then [] :: r
    else
      match r with
      | [] => [[c]]
      | h :: t => (c :: h) :: t

/-- Splits a string at every occurrence of the character `sep`. -/
def splitStr (s : String) (sep : Char) : List String :=
  (splitOnChar sep s.data).map fun l => ⟨l⟩

/-- Substring containment on character lists, mirroring Go
`strings.Contains`. -/
def listContainsSub (pat : List Char) : List Char → Bool
  | [] => pat.isEmpty
  | c :: cs => pat.isPrefixOf (c :: cs) || listContainsSub pat cs

/-- Substring containment on strings, mirroring Go `strings.Contains`. -/
def strContainsSub (s pat : String) : Bool :=
  listContainsSub pat.data s.data

/-- Membership of a single character in a string. -/
def strContainsChar (s : String) (c : Char) : Bool :=
  s.data.contains c

/-- Fuel-driven worker for `goReplaceAll`; the fuel is the input length, so
the recursion is structural and kernel-reducible. -/
def replaceAllAux (pat rep : List Char) : Nat → List Char → List Char
  | 0, s => s
  | fuel + 1, s =>
    match s with
    | [] => []
    | c :: cs =>
      if pat ≠ [] ∧ pat.isPrefixOf s then
        rep ++ replaceAllAux pat rep fuel (s.drop pat.length)
      else
        c :: replaceAllAux pat rep fuel cs

/-- Non-overlapping left-to-right replacement, mirroring Go
`strings.ReplaceAll`. -/
def goReplaceAll (s pat rep : String) : String :=
  ⟨replaceAllAux pat.data rep.data s.data.length s.data⟩

/-- Mirrors Go `strings.TrimPrefix s pre`. -/
def trimPre (s pre : String) : String :=
  if pre.data.isPrefixOf s.data then ⟨s.data.drop pre.data.length⟩ else s

/-- Mirrors Go `strings.HasPrefix`. -/
def strHasPre (s pre : String) : Bool :=
  pre.data.isPrefixOf s.data

/-- First `n` characters of a string, modelling the Go slice `s[:n]` for the
spec's character units. -/
def strTake (s : String) (n : Nat) : String :=
  ⟨s.data.take n⟩

/-- The string of `n` copies of one character (test data for the length
policies). -/
def strRepeat (c : Char) (n : Nat) : String :=
  ⟨List.replicate n c⟩

/-- Lower-cases a single character (ASCII letters only matter here). -/
def charLower (c : Char) : Char := c.toLower

/-- Case-insensitive string equality, mirroring Go `strings.EqualFold` for
the ASCII names that appear in the subtotal enumeration. -/
def strEqualFold (a b : String) : Bool :=
  a.data.map charLower = b.data.map charLower

/-- Accumulating decimal value of a digit list. -/
def digitsToNat (cs : List Char) : Nat :=
  cs.foldl (fun acc c => acc * 10 + (c.toNat - 48)) 0

/-- Accumulating bijective base-26 value of an A-Z list (A = 1). -/
def colCharsToNat (cs : List Char) : Nat :=
  cs.foldl (fun acc c => acc * 26 + (c.toNat - 64)) 0

/-- Mirrors Go `filepath.Base`: the component after the last slash. -/
def filepathBase (path : String) : String :=
  match (splitOnChar '/' path.data).getLast? with
  | some l => ⟨l⟩
  | none => path

/-- First value bound to `key` in an association list. -/
def assocFind {α β : Type} [DecidableEq α] (l : List (α × β)) (key : α) : Option β :=
  match l with
  | [] => none
  | (k, v) :: rest => if k = key then some v else assocFind rest key

/-- Recognises an ASCII capital letter. -/
def isUpperLetter (c : Char) : Bool :=
  decide ('A' ≤ c) && decide (c ≤ 'Z')

/-- Recognises an ASCII digit. -/
def isDigitChar (c : Char) : Bool :=
  decide ('0' ≤ c) && decide (c ≤ '9')

/-- Fuel-driven bijective base-26 column-name rendering (1 ↦ "A"). -/
def colNameAux : Nat → Nat → List Char
  | 0, _ => []
  | _, 0 => []
  | fuel + 1, n => colNameAux fuel ((n - 1) / 26) ++ [Char.ofNat (65 + (n - 1) % 26)]

/-- Modelled from the spec: the address-parsing utility
`CoordinatesToCellName` is outside the embedded excerpt; it renders
one-based column and row coordinates as an `A1`-style cell name. -/
def CoordinatesToCellName (col row : Int) : String :=
  ⟨colNameAux col.toNat col.toNat⟩ ++ toString row

/-- Title-cases a word the way the extractor's `cases.Title` call does for
the subtotal names: first character upper, remainder lower. -/
def titleCase (s : String) : String :=
  match s.data with
  | [] => ""
  | c :: cs => ⟨c.toUpper :: cs.map charLower⟩

/-! ## Errors

Modelled from the spec's error-kind catalogue (§7): `ErrParameterRequired`,
`ErrParameterInvalid`, `ErrNameLength`, `ErrSheetNotExist` and the
deletion-path "no such table" error are defined outside the embedded
excerpt; the two range wrappers carry the wrapped error the way
`newPivotTableRangeError` / `newPivotTableDataRangeError` wrap the inner
message string. -/
inductive Err where
  | parameterRequired
  | parameterInvalid
  | nameLength
  | sheetNotExist (sheet : String)
  | noExistTable (name : String)
  | tableRange (inner : Err)
  | dataRange (inner : Err)
deriving DecidableEq

/-- Modelled from the spec: names are limited to 255 units. -/
def MaxFieldLength : Nat := 255

/-- Result values are compared in concrete test evaluations. -/
instance {ε α : Type} [DecidableEq ε] [DecidableEq α] : DecidableEq (Except ε α) := fun a b =>
  match a, b with
  | .error e, .error e' =>
    if h : e = e' then .isTrue (by rw [h]) else .isFalse (by simp [h])
  | .error _, .ok _ => .isFalse (by simp)
  | .ok _, .error _ => .isFalse (by simp)
  | .ok v, .ok v' =>
    if h : v = v' then .isTrue (by rw [h]) else .isFalse (by simp [h])

/-! ## Data model -/

/-- PivotTableField directly maps the field settings of the pivot table. -/
structure PivotTableField where
  Compact : Bool := false
  Data : String := ""
  Name : String := ""
  Outline : Bool := false
  Subtotal : String := ""
  DefaultSubtotal : Bool := false
deriving DecidableEq

/-- PivotTableOptions directly maps the format settings of the pivot
table; the lowercase-initial fields are the unexported resolution state the
Go methods thread through the options pointer. -/
structure PivotTableOptions where
  pivotTableXML : String := ""
  pivotCacheXML : String := ""
  pivotSheetName : String := ""
  pivotDataRange : String := ""
  namedDataRange : Bool := false
  DataRange : String := ""
  PivotTableRange : String := ""
  Name : String := ""
  Rows : List PivotTableField := []
  Columns : List PivotTableField := []
  Data : List PivotTableField := []
  Filter : List PivotTableField := []
  RowGrandTotals : Bool := false
  ColGrandTotals : Bool := false
  ShowDrill : Bool := false
  UseAutoFormatting : Bool := false
  PageOverThenDown : Bool := false
  MergeItem : Bool := false
  CompactData : Bool := false
  ShowError : Bool := false
  ShowRowHeaders : Bool := false
  ShowColHeaders : Bool := false
  ShowRowStripes : Bool := false
  ShowColStripes : Bool := false
  ShowLastColumn : Bool := false
  PivotTableStyleName : String := ""
deriving DecidableEq

/-- One axis-list entry of the table definition (`x` attribute); `-2` is
the synthetic values-axis sentinel. -/
structure xlsxField where
  X : Int
deriving DecidableEq

/-- One item of a pivot field; `T` is the item type tag, `X` the pointer to
the shared placeholder index (present when the item carries an index). -/
structure xlsxItem where
  T : String := ""
  X : Option Int := none
deriving DecidableEq

/-- Item list with its serialized count. -/
structure xlsxItems where
  Count : Nat := 0
  Item : List xlsxItem := []
deriving DecidableEq

/-- Per-column pivot-field descriptor; optional fields model the Go
pointer fields (absent attribute when `none`). -/
structure xlsxPivotField where
  Name : String := ""
  Axis : String := ""
  DataField : Bool := false
  Compact : Option Bool := none
  Outline : Option Bool := none
  DefaultSubtotal : Option Bool := none
  Items : Option xlsxItems := none
deriving DecidableEq

/-- Row-field index list with its serialized count. -/
structure xlsxRowFields where
  Count : Nat := 0
  Field : List xlsxField := []
deriving DecidableEq

/-- Column-field index list with its serialized count. -/
structure xlsxColFields where
  Count : Nat := 0
  Field : List xlsxField := []
deriving DecidableEq

/-- One page (filter) field entry. -/
structure xlsxPageField where
  Name : String := ""
  Fld : Int := 0
deriving DecidableEq

/-- Page-field list with its serialized count. -/
structure xlsxPageFields where
  Count : Nat := 0
  PageField : List xlsxPageField := []
deriving DecidableEq

/-- One data-field entry. -/
structure xlsxDataField where
  Name : String := ""
  Fld : Int := 0
  Subtotal : String := ""
deriving DecidableEq

/-- Data-field list with its serialized count. -/
structure xlsxDataFields where
  Count : Nat := 0
  DataField : List xlsxDataField := []
deriving DecidableEq

/-- Per-column descriptor list with its serialized count. -/
structure xlsxPivotFields where
  Count : Nat := 0
  PivotField : List xlsxPivotField := []
deriving DecidableEq

/-- Style block of the table definition. -/
structure xlsxPivotTableStyleInfo where
  Name : String := ""
  ShowRowHeaders : Bool := false
  ShowColHeaders : Bool := false
  ShowRowStripes : Bool := false
  ShowColStripes : Bool := false
  ShowLastColumn : Bool := false
deriving DecidableEq

/-- The pivot-table definition part (the fields the embedded subsystem
reads or writes; fixed version metadata is omitted). -/
structure xlsxPivotTableDefinition where
  Name : String := ""
  CacheID : Int := 0
  RowGrandTotals : Option Bool := none
  ColGrandTotals : Option Bool := none
  ShowDrill : Option Bool := none
  UseAutoFormatting : Option Bool := none
  PageOverThenDown : Option Bool := none
  MergeItem : Option Bool := none
  CompactData : Option Bool := none
  ShowError : Option Bool := none
  DataCaption : String := ""
  LocationRef : String := ""
  PivotFields : xlsxPivotFields := {}
  RowFields : Option xlsxRowFields := none
  ColFields : Option xlsxColFields := none
  PageFields : Option xlsxPageFields := none
  DataFields : Option xlsxDataFields := none
  StyleInfo : Option xlsxPivotTableStyleInfo := none
deriving DecidableEq

/-- Worksheet source of a cache: either a literal rectangle (`Ref` +
`Sheet`) or a named range (`Name`). -/
structure xlsxWorksheetSource where
  Ref : String := ""
  Sheet : String := ""
  Name : String := ""
deriving DecidableEq

/-- Cache source wrapper. -/
structure xlsxCacheSource where
  «Type» : String := ""
  WorksheetSource : xlsxWorksheetSource := {}
deriving DecidableEq

/-- One cache field; `ContainsBlank` is the sparsity hint on its shared
items. -/
structure xlsxCacheField where
  Name : String := ""
  ContainsBlank : Bool := false
deriving DecidableEq

/-- Cache-field list with its serialized count. -/
structure xlsxCacheFields where
  Count : Nat := 0
  CacheField : List xlsxCacheField := []
deriving DecidableEq

/-- The pivot-cache definition part (fixed version metadata omitted). -/
structure xlsxPivotCacheDefinition where
  SaveData : Bool := false
  RefreshOnLoad : Bool := false
  CacheSource : xlsxCacheSource := {}
  CacheFields : xlsxCacheFields := {}
deriving DecidableEq

/-- A typed relationship entry of a `_rels` part. -/
structure Relationship where
  ID : String := ""
  «Type» : String := ""
  Target : String := ""
deriving DecidableEq

/-- A workbook-level pivot-cache registration. -/
structure xlsxPivotCache where
  CacheID : Int := 0
  RID : String := ""
deriving DecidableEq

/-- The workbook part, restricted to the pivot-cache registry this
subsystem touches. -/
structure xlsxWorkbook where
  PivotCaches : Option (List xlsxPivotCache) := none
deriving DecidableEq

/-- Modelled from the spec: the document state behind the `*File` receiver.
The package key-value store is split per part kind (worksheet cell store,
relationship parts, pivot-table parts, pivot-cache parts, workbook part,
content-type registry) plus the flat list of part paths that the
ID-allocation counters scan. -/
structure File where
  sheetPaths : List (String × String) := []
  cells : String → Int → Int → String := fun _ _ _ => ""
  tables : String → List (String × String) := fun _ => []
  definedNames : String → String → String := fun _ _ => ""
  rels : String → List Relationship := fun _ => []
  pivotTableParts : String → Option xlsxPivotTableDefinition := fun _ => none
  pivotCacheParts : String → Option xlsxPivotCacheDefinition := fun _ => none
  workbook : xlsxWorkbook := {}
  pkgPaths : List String := []
  contentTypes : List String := []

/-- Relationship type of a sheet-to-table link. -/
def SourceRelationshipPivotTable : String :=
  "http://schemas.openxmlformats.org/officeDocument/2006/relationships/pivotTable"

/-- Relationship type of a table-to-cache or workbook-to-cache link. -/
def SourceRelationshipPivotCache : String :=
  "http://schemas.openxmlformats.org/officeDocument/2006/relationships/pivotCacheDefinition"

/-- Path of the workbook relationship part (`getWorkbookRelsPath`). -/
def workbookRelsPath : String := "xl/_rels/workbook.xml.rels"

/-! ## Leaf operations modelled from the spec

These model repository code that is outside the embedded excerpt (address
parsing, cell reads, relationship bookkeeping and the part store), per the
spec's narrow-interface description of them. -/

/-- Modelled from the spec: `getSheetXMLPath` looks a worksheet's part
path up by sheet name. -/
def getSheetXMLPath (f : File) (sheet : String) : Option String :=
  assocFind f.sheetPaths sheet

/-- Modelled from the spec: `GetSheetList` enumerates sheet names in
workbook order. -/
def GetSheetList (f : File) : List String :=
  f.sheetPaths.map Prod.fst

/-- Modelled from the spec: `GetCellValue` reads one cell's text value,
failing when the worksheet does not exist; an unset cell reads as "".
The embedded callers always address cells by coordinates, so the model
takes the coordinates directly. -/
def GetCellValue (f : File) (sheet : String) (col row : Int) : Except Err String :=
  match getSheetXMLPath f sheet with
  | none => .error (.sheetNotExist sheet)
  | some _ => .ok (f.cells sheet col row)

/-- Modelled from the spec: `workSheetReader` deserializes a worksheet,
failing when it does not exist.  Only the failure behaviour matters here. -/
def workSheetReader (f : File) (sheet : String) : Except Err Unit :=
  match getSheetXMLPath f sheet with
  | none => .error (.sheetNotExist sheet)
  | some _ => .ok ()

/-- Modelled from the spec: `CellNameToCoordinates` parses an `A1`-style
cell name into one-based column and row coordinates; dollar anchors have
already been stripped by the caller. -/
def cellNameToCoordinates (cell : String) : Option (Int × Int) :=
  let letters := cell.data.takeWhile isUpperLetter
  let digits := cell.data.dropWhile isUpperLetter
  if letters = [] ∨ digits = [] ∨ ¬ digits.all isDigitChar then none
  else if digitsToNat digits = 0 then none
  else some ((colCharsToNat letters : Int), (digitsToNat digits : Int))

/-- Modelled from the spec: `rangeRefToCoordinates` parses a two-corner
rectangle reference `A1:B2` into the two corners' coordinates, failing on
any other shape. -/
def rangeRefToCoordinates (ref : String) : Except Err (Int × Int × Int × Int) :=
  match splitStr ref ':' with
  | [a, b] =>
    match cellNameToCoordinates a, cellNameToCoordinates b with
    | some (x1, y1), some (x2, y2) => .ok (x1, y1, x2, y2)
    | _, _ => .error .parameterInvalid
  | _ => .error .parameterInvalid

/-- Reads the four entries of a coordinate quadruple the way the Go code
indexes `coordinates[0] .. coordinates[3]`; `adjustRange` only ever
produces four-entry lists on success. -/
def coord4 : List Int → Int × Int × Int × Int
  | [a, b, c, d] => (a, b, c, d)
  | _ => (0, 0, 0, 0)

/-- The inclusive column range `x1 .. x2` that the header-row loop walks. -/
def colRange (x1 x2 : Int) : List Int :=
  (List.range (x2 + 1 - x1).toNat).map fun i => x1 + (i : Int)

/-- Numeric part of a relationship ID of the shape `rIdN` (0 otherwise). -/
def relIDNum (s : String) : Nat :=
  match s.data with
  | 'r' :: 'I' :: 'd' :: rest =>
    if rest ≠ [] ∧ rest.all isDigitChar then digitsToNat rest else 0
  | _ => 0

/-- Replaces the relationship list stored at one `_rels` part path. -/
def updateRels (f : File) (path : String) (l : List Relationship) : File :=
  { f with rels := fun p => if p = path then l else f.rels p }

/-- Modelled from the spec: `addRels` appends a relationship with the next
free `rIdN` to the given relationship part and returns the allocated
number.  The `targetMode` argument is unused for the internal targets this
subsystem registers. -/
def addRels (f : File) (relPath relType target targetMode : String) : File × Nat :=
  let existing := f.rels relPath
  let rID := (existing.foldl (fun m r => max m (relIDNum r.ID)) 0) + 1
  (updateRels f relPath
      (existing ++ [{ ID := "rId" ++ toString rID, «Type» := relType, Target := target }]),
    rID)

/-- Modelled from the spec: `saveFileList` upserts a part into the package
store; the cache-definition variant records the structured part and its
path. -/
def saveCachePart (f : File) (path : String) (pc : xlsxPivotCacheDefinition) : File :=
  { f with
    pivotCacheParts := fun p => if p = path then some pc else f.pivotCacheParts p,
    pkgPaths := if f.pkgPaths.contains path then f.pkgPaths else f.pkgPaths ++ [path] }

/-- Modelled from the spec: `saveFileList` upserts a part into the package
store; the table-definition variant records the structured part and its
path. -/
def saveTablePart (f : File) (path : String) (pt : xlsxPivotTableDefinition) : File :=
  { f with
    pivotTableParts := fun p => if p = path then some pt else f.pivotTableParts p,
    pkgPaths := if f.pkgPaths.contains path then f.pkgPaths else f.pkgPaths ++ [path] }

/-- Modelled from the spec: `addContentTypePart` registers a content-type
override for a newly created part; it is an upsert that never fails for
the pivot part kinds. -/
def addContentTypePart (f : File) (index : Int) (contentType : String) : Except Err File :=
  .ok { f with contentTypes := f.contentTypes ++ [contentType ++ toString index] }

/-- Modelled from the spec: `deleteSheetRelationships` removes the
relationship with the given ID from a worksheet's relationship part. -/
def deleteSheetRelationships (f : File) (sheet rID : String) : File :=
  match getSheetXMLPath f sheet with
  | none => f
  | some name =>
    let relPath := "xl/worksheets/_rels/" ++ trimPre name "xl/worksheets/" ++ ".rels"
    updateRels f relPath ((f.rels relPath).filter fun r => r.ID ≠ rID)

/-- Modelled from the spec: `deleteWorkbookRels` removes the workbook
relationship matching the given type and target and returns its ID ("" when
no such relationship exists). -/
def deleteWorkbookRels (f : File) (relType target : String) : File × String :=
  match (f.rels workbookRelsPath).find? (fun r => r.«Type» == relType && r.Target == target) with
  | none => (f, "")
  | some r =>
    (updateRels f workbookRelsPath ((f.rels workbookRelsPath).filter fun x => x.ID ≠ r.ID), r.ID)

/-! ## Embedded source functions (`pivotTable.go`) -/

/-- adjustRange adjust range, for example: adjust Sheet1!$E$31:$A$1 to
Sheet1!$A$1:$E$31. -/
def adjustRange (rangeStr : String) : Except Err (String × List Int) :=
  if rangeStr.data.length < 1 then .error .parameterRequired
  else
    match splitStr rangeStr '!' with
    | [sheet, ref] =>
      let trimRng := goReplaceAll ref "$" ""
      match rangeRefToCoordinates trimRng with
      | .error e => .error e
      | .ok (x1, y1, x2, y2) =>
        if x1 = x2 ∧ y1 = y2 then .error .parameterInvalid
        else
          let p := if x2 < x1 then (x2, x1) else (x1, x2)
          let q := if y2 < y1 then (y2, y1) else (y1, y2)
          .ok (sheet, [p.1, q.1, p.2, q.2])
    | _ => .error .parameterInvalid

/-- Scans the sheets in workbook order for a named table whose name equals
the data-range descriptor (the table-scan loop of
`getPivotTableDataRange`; the per-sheet table list is the modelled
`GetTables`). -/
def findNamedTable (f : File) (dataRange : String) : List (String × String) → Option (String × String)
  | [] => none
  | (sheetName, _) :: rest =>
    match (f.tables sheetName).find? (fun t => t.1 == dataRange) with
    | some t => some (sheetName, t.2)
    | none => findNamedTable f dataRange rest

/-- getPivotTableDataRange checking given if data range is a cell
reference or named reference (defined name or table name), and set pivot
table data range. -/
def getPivotTableDataRange (f : File) (opts : PivotTableOptions) : Except Err PivotTableOptions :=
  if opts.DataRange = "" then .error (.dataRange .parameterRequired)
  else if opts.pivotDataRange ≠ "" then .ok opts
  else if strContainsChar opts.DataRange '!' then
    .ok { opts with pivotDataRange := opts.DataRange }
  else
    match findNamedTable f opts.DataRange f.sheetPaths with
    | some (sheetName, rng) =>
      .ok { opts with pivotDataRange := sheetName ++ "!" ++ rng, namedDataRange := true }
    | none =>
      if !opts.namedDataRange then
        let refTo := f.definedNames opts.DataRange opts.pivotSheetName
        if refTo ≠ "" then
          .ok { opts with pivotDataRange := refTo, namedDataRange := true }
        else .error (.dataRange .parameterInvalid)
      else .error (.dataRange .parameterInvalid)

/-- Reads the header-row cells across the given columns; an empty cell
value fails with `ErrParameterInvalid` (the loop body of
`getTableFieldsOrder`). -/
def readHeaderRow (f : File) (sheet : String) (y1 : Int) : List Int → Except Err (List String)
  | [] => .ok []
  | col :: rest =>
    match GetCellValue f sheet col y1 with
    | .error e => .error e
    | .ok name =>
      if name = "" then .error .parameterInvalid
      else
        match readHeaderRow f sheet y1 rest with
        | .error e => .error e
        | .ok names => .ok (name :: names)

/-- getTableFieldsOrder provides a function to get order list of pivot
table fields.  The updated options carry the memoized data-range
resolution the Go method writes through its options pointer. -/
def getTableFieldsOrder (f : File) (opts : PivotTableOptions) :
    Except Err (List String × PivotTableOptions) :=
  match getPivotTableDataRange f opts with
  | .error e => .error e
  | .ok opts =>
    match adjustRange opts.pivotDataRange with
    | .error e => .error (.dataRange e)
    | .ok (dataSheet, coordinates) =>
      let c := coord4 coordinates
      match readHeaderRow f dataSheet c.2.1 (colRange c.1 c.2.2.1) with
      | .error e => .error e
      | .ok order => .ok (order, opts)

/-- addPivotCache provides a function to create a pivot cache by given
properties. -/
def addPivotCache (f : File) (opts : PivotTableOptions) : Except Err File :=
  match adjustRange opts.pivotDataRange with
  | .error e => .error (.dataRange e)
  | .ok (dataSheet, coordinates) =>
    match getTableFieldsOrder f opts with
    | .error e => .error (.dataRange e)
    | .ok (order, _) =>
      let c := coord4 coordinates
      let topLeftCell := CoordinatesToCellName c.1 c.2.1
      let bottomRightCell := CoordinatesToCellName c.2.2.1 c.2.2.2
      let ws : xlsxWorksheetSource :=
        if opts.namedDataRange then { Name := opts.DataRange }
        else { Ref := topLeftCell ++ ":" ++ bottomRightCell, Sheet := dataSheet }
      let cacheFields := order.map fun name =>
        ({ Name := name, ContainsBlank := true } : xlsxCacheField)
      let pc : xlsxPivotCacheDefinition :=
        { SaveData := false
          RefreshOnLoad := true
          CacheSource := { «Type» := "worksheet", WorksheetSource := ws }
          CacheFields := { Count := cacheFields.length, CacheField := cacheFields } }
      .ok (saveCachePart f opts.pivotCacheXML pc)

/-- inPivotTableField worker carrying the running index. -/
def inPivotTableFieldAux (x : String) : List PivotTableField → Nat → Int
  | [], _ => -1
  | n :: rest, idx => if x = n.Data then (idx : Int) else inPivotTableFieldAux x rest (idx + 1)

/-- inPivotTableField provides a method to check if an element is present
in pivot table fields list, and return the index of its location,
otherwise return -1. -/
def inPivotTableField (a : List PivotTableField) (x : String) : Int :=
  inPivotTableFieldAux x a 0

/-- inStrSlice worker carrying the running index. -/
def inStrSliceAux (x : String) (caseSensitive : Bool) : List String → Nat → Int
  | [], _ => -1
  | n :: rest, idx =>
    if (if caseSensitive then n = x else strEqualFold n x = true) then (idx : Int)
    else inStrSliceAux x caseSensitive rest (idx + 1)

/-- Modelled from the spec: `inStrSlice` returns the index of the first
occurrence of `x` in the slice, or -1; the pivot paths call it
case-sensitively. -/
def inStrSlice (a : List String) (x : String) (caseSensitive : Bool) : Int :=
  inStrSliceAux x caseSensitive a 0

/-- getPivotFieldsIndex convert the column of the first row in the data
region to a sequential index by given fields and pivot option.  Names
absent from the order are skipped without an error. -/
def getPivotFieldsIndex (f : File) (fields : List PivotTableField)
    (opts : PivotTableOptions) : Except Err (List Int) :=
  match getTableFieldsOrder f opts with
  | .error e => .error e
  | .ok (orders, _) =>
    .ok (fields.filterMap fun field =>
      let pos := inStrSlice orders field.Data true
      if pos ≠ -1 then some pos else none)

/-- The fixed subtotal-function enumeration. -/
def subtotalEnums : List String :=
  ["average", "count", "countNums", "max", "min", "product", "stdDev", "stdDevp", "sum",
    "var", "varp"]

/-- Case-insensitive lookup in the subtotal enumeration, defaulting to
"sum" (the `inEnums` closure of `getPivotTableFieldsSubtotal`). -/
def inEnums (enums : List String) (val : String) : String :=
  match enums.find? (fun enum => strEqualFold enum val) with
  | some enum => enum
  | none => "sum"

/-- getPivotTableFieldsSubtotal prepare fields subtotal by given pivot
table fields. -/
def getPivotTableFieldsSubtotal (fields : List PivotTableField) : List String :=
  fields.map fun fld => inEnums subtotalEnums fld.Subtotal

/-- getPivotTableFieldsName prepare fields name list by given pivot table
fields; names longer than `MaxFieldLength` are truncated. -/
def getPivotTableFieldsName (fields : List PivotTableField) : List String :=
  fields.map fun fld =>
    if MaxFieldLength < fld.Name.data.length then strTake fld.Name MaxFieldLength
    else fld.Name

/-- getPivotTableFieldName worker over the field/name pairs. -/
def getPivotTableFieldNameAux (name : String) : List (PivotTableField × String) → String
  | [] => ""
  | (field, fname) :: rest =>
    if field.Data = name then fname else getPivotTableFieldNameAux name rest

/-- getPivotTableFieldName prepare field name by given pivot table
fields. -/
def getPivotTableFieldName (name : String) (fields : List PivotTableField) : String :=
  getPivotTableFieldNameAux name (fields.zip (getPivotTableFieldsName fields))

/-- getPivotTableFieldOptions return options for specific field by given
field name. -/
def getPivotTableFieldOptions (name : String) : List PivotTableField → PivotTableField × Bool
  | [] => ({}, false)
  | field :: rest =>
    if field.Data = name then (field, true) else getPivotTableFieldOptions name rest

/-- The per-column descriptor built by one iteration of the
`addPivotFields` loop: first-match classification over Rows, Filter,
Columns, Data. -/
def pivotFieldForName (opts : PivotTableOptions) (name : String) : xlsxPivotField :=
  if inPivotTableField opts.Rows name ≠ -1 then
    let rowOptions := getPivotTableFieldOptions name opts.Rows
    let items :=
      if !rowOptions.2 || !rowOptions.1.DefaultSubtotal then
        [({ X := some 0 } : xlsxItem)]
      else [({ T := "default" } : xlsxItem)]
    { Name := getPivotTableFieldName name opts.Rows
      Axis := "axisRow"
      DataField := inPivotTableField opts.Data name != -1
      Compact := some rowOptions.1.Compact
      Outline := some rowOptions.1.Outline
      DefaultSubtotal := some rowOptions.1.DefaultSubtotal
      Items := some { Count := items.length, Item := items } }
  else if inPivotTableField opts.Filter name ≠ -1 then
    { Axis := "axisPage"
      DataField := inPivotTableField opts.Data name != -1
      Name := getPivotTableFieldName name opts.Columns
      Items := some { Count := 1, Item := [{ T := "default" }] } }
  else if inPivotTableField opts.Columns name ≠ -1 then
    let columnOptions := getPivotTableFieldOptions name opts.Columns
    let items :=
      if !columnOptions.2 || !columnOptions.1.DefaultSubtotal then
        [({ X := some 0 } : xlsxItem)]
      else [({ T := "default" } : xlsxItem)]
    { Name := getPivotTableFieldName name opts.Columns
      Axis := "axisCol"
      DataField := inPivotTableField opts.Data name != -1
      Compact := some columnOptions.1.Compact
      Outline := some columnOptions.1.Outline
      DefaultSubtotal := some columnOptions.1.DefaultSubtotal
      Items := some { Count := items.length, Item := items } }
  else if inPivotTableField opts.Data name ≠ -1 then
    { DataField := true }
  else {}

/-- addPivotFields create pivot fields based on the column order of the
first row in the data region by given pivot table definition and
option. -/
def addPivotFields (f : File) (pt : xlsxPivotTableDefinition) (opts : PivotTableOptions) :
    xlsxPivotTableDefinition × Option Err :=
  match getTableFieldsOrder f opts with
  | .error e => (pt, some e)
  | .ok (order, _) =>
    ({ pt with
        PivotFields :=
          { Count := pt.PivotFields.Count
            PivotField := pt.PivotFields.PivotField ++ order.map (pivotFieldForName opts) } },
      none)

/-- One iteration of the `addPivotRowFields` loop: create the row-field
list on first use and append one index entry. -/
def appendRowField (pt : xlsxPivotTableDefinition) (fieldIdx : Int) :
    xlsxPivotTableDefinition :=
  let rf := pt.RowFields.getD {}
  { pt with RowFields := some { rf with Field := rf.Field ++ [{ X := fieldIdx }] } }

/-- addPivotRowFields provides a method to add row fields for pivot table
by given pivot table options. -/
def addPivotRowFields (f : File) (pt : xlsxPivotTableDefinition) (opts : PivotTableOptions) :
    xlsxPivotTableDefinition × Option Err :=
  match getPivotFieldsIndex f opts.Rows opts with
  | .error e => (pt, some e)
  | .ok rowFieldsIndex =>
    let pt := rowFieldsIndex.foldl appendRowField pt
    let pt :=
      match pt.RowFields with
      | none => pt
      | some rf => { pt with RowFields := some { rf with Count := rf.Field.length } }
    (pt, none)

/-- addPivotColFields create pivot column fields by given pivot table
definition and option. -/
def addPivotColFields (f : File) (pt : xlsxPivotTableDefinition) (opts : PivotTableOptions) :
    xlsxPivotTableDefinition × Option Err :=
  if opts.Columns.length = 0 then
    if opts.Data.length ≤ 1 then (pt, none)
    else ({ pt with ColFields := some { Count := 1, Field := [{ X := -2 }] } }, none)
  else
    let pt := { pt with ColFields := some {} }
    match getPivotFieldsIndex f opts.Columns opts with
    | .error e => (pt, some e)
    | .ok colFieldsIndex =>
      let fields := colFieldsIndex.map fun fieldIdx => ({ X := fieldIdx } : xlsxField)
      let fields := if opts.Data.length > 1 then fields ++ [{ X := -2 }] else fields
      ({ pt with ColFields := some { Count := fields.length, Field := fields } }, none)

/-- One iteration of the `addPivotPageFields` loop: create the page-field
list on first use and append one named entry. -/
def appendPageField (pageFieldsName : List String) (pt : xlsxPivotTableDefinition)
    (p : Nat × Int) : xlsxPivotTableDefinition :=
  let pf := pt.PageFields.getD {}
  { pt with
      PageFields := some
        { pf with PageField := pf.PageField ++ [{ Name := pageFieldsName.getD p.1 "", Fld := p.2 }] } }

/-- addPivotPageFields provides a method to add page fields for pivot
table by given pivot table options. -/
def addPivotPageFields (f : File) (pt : xlsxPivotTableDefinition) (opts : PivotTableOptions) :
    xlsxPivotTableDefinition × Option Err :=
  match getPivotFieldsIndex f opts.Filter opts with
  | .error e => (pt, some e)
  | .ok pageFieldsIndex =>
    let pageFieldsName := getPivotTableFieldsName opts.Filter
    let pt := pageFieldsIndex.enum.foldl (appendPageField pageFieldsName) pt
    let pt :=
      match pt.PageFields with
      | none => pt
      | some pf => { pt with PageFields := some { pf with Count := pf.PageField.length } }
    (pt, none)

/-- One iteration of the `addPivotDataFields` loop: create the data-field
list on first use and append one named entry with its subtotal. -/
def appendDataField (dataFieldsName dataFieldsSubtotals : List String)
    (pt : xlsxPivotTableDefinition) (p : Nat × Int) : xlsxPivotTableDefinition :=
  let df := pt.DataFields.getD {}
  { pt with
      DataFields := some
        { df with
            DataField := df.DataField ++
              [{ Name := dataFieldsName.getD p.1 ""
                 Fld := p.2
                 Subtotal := dataFieldsSubtotals.getD p.1 "" }] } }

/-- addPivotDataFields provides a method to add data fields for pivot
table by given pivot table options. -/
def addPivotDataFields (f : File) (pt : xlsxPivotTableDefinition) (opts : PivotTableOptions) :
    xlsxPivotTableDefinition × Option Err :=
  match getPivotFieldsIndex f opts.Data opts with
  | .error e => (pt, some e)
  | .ok dataFieldsIndex =>
    let dataFieldsSubtotals := getPivotTableFieldsSubtotal opts.Data
    let dataFieldsName := getPivotTableFieldsName opts.Data
    let pt := dataFieldsIndex.enum.foldl (appendDataField dataFieldsName dataFieldsSubtotals) pt
    let pt :=
      match pt.DataFields with
      | none => pt
      | some df => { pt with DataFields := some { df with Count := df.DataField.length } }
    (pt, none)

/-- countPivotTables provides a function to get pivot table files count
storage in the folder xl/pivotTables. -/
def countPivotTables (f : File) : Nat :=
  (f.pkgPaths.filter fun k => strContainsSub k "xl/pivotTables/pivotTable").length

/-- countPivotCache provides a function to get pivot table cache
definition files count storage in the folder xl/pivotCache. -/
def countPivotCache (f : File) : Nat :=
  (f.pkgPaths.filter fun k => strContainsSub k "xl/pivotCache/pivotCacheDefinition").length

/-- addWorkbookPivotCache add the association ID of the pivot cache in
workbook.xml. -/
def addWorkbookPivotCache (f : File) (RID : Nat) : File × Int :=
  let pcs := f.workbook.PivotCaches.getD []
  let cacheID := (pcs.foldl (fun m pc => if pc.CacheID > m then pc.CacheID else m) 1) + 1
  ({ f with
      workbook :=
        { PivotCaches := some (pcs ++ [{ CacheID := cacheID, RID := "rId" ++ toString RID }]) } },
    cacheID)

/-- addPivotTable provides a function to create a pivot table by given
pivot table ID and properties. -/
def addPivotTable (f : File) (cacheID : Int) (pivotTableID : Nat)
    (opts : PivotTableOptions) : Except Err File :=
  match adjustRange opts.PivotTableRange with
  | .error e => .error (.tableRange e)
  | .ok (_, coordinates) =>
    let c := coord4 coordinates
    let topLeftCell := CoordinatesToCellName c.1 c.2.1
    let bottomRightCell := CoordinatesToCellName c.2.2.1 c.2.2.2
    let pivotTableStyle :=
      if opts.PivotTableStyleName = "" then "PivotStyleLight16" else opts.PivotTableStyleName
    let pt : xlsxPivotTableDefinition :=
      { Name := opts.Name
        CacheID := cacheID
        RowGrandTotals := some opts.RowGrandTotals
        ColGrandTotals := some opts.ColGrandTotals
        ShowDrill := some opts.ShowDrill
        UseAutoFormatting := some opts.UseAutoFormatting
        PageOverThenDown := some opts.PageOverThenDown
        MergeItem := some opts.MergeItem
        CompactData := some opts.CompactData
        ShowError := some opts.ShowError
        DataCaption := "Values"
        LocationRef := topLeftCell ++ ":" ++ bottomRightCell
        PivotFields := {}
        StyleInfo := some
          { Name := pivotTableStyle
            ShowRowHeaders := opts.ShowRowHeaders
            ShowColHeaders := opts.ShowColHeaders
            ShowRowStripes := opts.ShowRowStripes
            ShowColStripes := opts.ShowColStripes
            ShowLastColumn := opts.ShowLastColumn } }
    let pt := if pt.Name = "" then { pt with Name := "PivotTable" ++ toString pivotTableID } else pt
    let pt := (addPivotFields f pt opts).1
    let pt := { pt with
      PivotFields :=
        { Count := pt.PivotFields.PivotField.length, PivotField := pt.PivotFields.PivotField } }
    let pt := (addPivotRowFields f pt opts).1
    let pt := (addPivotColFields f pt opts).1
    let pt := (addPivotPageFields f pt opts).1
    let pt := (addPivotDataFields f pt opts).1
    .ok (saveTablePart f opts.pivotTableXML pt)

/-- parseFormatPivotTableSet provides a function to validate pivot table
properties; returns the pivot sheet's part path together with the options
carrying the memoized data-range resolution. -/
def parseFormatPivotTableSet (f : File) (opts : PivotTableOptions) :
    Except Err (String × PivotTableOptions) :=
  match adjustRange opts.PivotTableRange with
  | .error e => .error (.tableRange e)
  | .ok (pivotTableSheetName, _) =>
    if MaxFieldLength < opts.Name.data.length then .error .nameLength
    else
      let opts := { opts with pivotSheetName := pivotTableSheetName }
      match getPivotTableDataRange f opts with
      | .error e => .error e
      | .ok opts =>
        match adjustRange opts.pivotDataRange with
        | .error e => .error (.dataRange e)
        | .ok (dataSheetName, _) =>
          match workSheetReader f dataSheetName with
          | .error e => .error e
          | .ok _ =>
            match getSheetXMLPath f pivotTableSheetName with
            | none => .error (.sheetNotExist pivotTableSheetName)
            | some pivotTableSheetPath => .ok (pivotTableSheetPath, opts)

/-- AddPivotTable provides the method to add pivot table by given pivot
table options. -/
def AddPivotTable (f : File) (opts : PivotTableOptions) : Except Err File :=
  match parseFormatPivotTableSet f opts with
  | .error e => .error e
  | .ok (pivotTableSheetPath, opts) =>
    let pivotTableID := countPivotTables f + 1
    let pivotCacheID := countPivotCache f + 1
    let sheetRelationshipsPivotTableXML :=
      "../pivotTables/pivotTable" ++ toString pivotTableID ++ ".xml"
    let opts := { opts with
      pivotTableXML := goReplaceAll sheetRelationshipsPivotTableXML ".." "xl"
      pivotCacheXML := "xl/pivotCache/pivotCacheDefinition" ++ toString pivotCacheID ++ ".xml" }
    match addPivotCache f opts with
    | .error e => .error e
    | .ok f =>
      let r1 := addRels f workbookRelsPath SourceRelationshipPivotCache
        (trimPre opts.pivotCacheXML "xl/") ""
      let f := r1.1
      let workBookPivotCacheRID := r1.2
      let r2 := addWorkbookPivotCache f workBookPivotCacheRID
      let f := r2.1
      let cacheID := r2.2
      let pivotCacheRels :=
        "xl/pivotTables/_rels/pivotTable" ++ toString pivotTableID ++ ".xml.rels"
      let f := (addRels f pivotCacheRels SourceRelationshipPivotCache
        ("../pivotCache/pivotCacheDefinition" ++ toString pivotCacheID ++ ".xml") "").1
      match addPivotTable f cacheID pivotTableID opts with
      | .error e => .error e
      | .ok f =>
        let pivotTableSheetRels :=
          "xl/worksheets/_rels/" ++ trimPre pivotTableSheetPath "xl/worksheets/" ++ ".rels"
        let f := (addRels f pivotTableSheetRels SourceRelationshipPivotTable
          sheetRelationshipsPivotTableXML "").1
        match addContentTypePart f (Int.ofNat pivotTableID) "pivotTable" with
        | .error e => .error e
        | .ok f => addContentTypePart f (Int.ofNat pivotCacheID) "pivotCache"

/-- extractPivotTableField provides a function to extract pivot table
field settings by given pivot table fields.  The spec replaces the Go
reflection copy with this explicit field-by-field mapping; the pointer
boolean fields copy only when present. -/
def extractPivotTableField (data : String) (fld : xlsxPivotField) : PivotTableField :=
  { Data := data
    Name := fld.Name
    Compact := fld.Compact.getD false
    Outline := fld.Outline.getD false
    DefaultSubtotal := fld.DefaultSubtotal.getD false }

/-- extractPivotTableFields provides a function to extract all pivot
table fields settings by given pivot table fields. -/
def extractPivotTableFields (order : List String) (pt : xlsxPivotTableDefinition)
    (opts : PivotTableOptions) : PivotTableOptions :=
  let opts := pt.PivotFields.PivotField.enum.foldl
    (fun opts p =>
      let fieldIdx := p.1
      let field := p.2
      let opts :=
        if field.Axis = "axisRow" then
          { opts with Rows := opts.Rows ++ [extractPivotTableField (order.getD fieldIdx "") field] }
        else opts
      let opts :=
        if field.Axis = "axisCol" then
          { opts with
              Columns := opts.Columns ++ [extractPivotTableField (order.getD fieldIdx "") field] }
        else opts
      let opts :=
        if field.Axis = "axisPage" then
          { opts with
              Filter := opts.Filter ++ [extractPivotTableField (order.getD fieldIdx "") field] }
        else opts
      opts)
    opts
  match pt.DataFields with
  | none => opts
  | some dfs =>
    dfs.DataField.foldl
      (fun opts field =>
        { opts with
            Data := opts.Data ++
              [{ Data := order.getD field.Fld.toNat ""
                 Name := field.Name
                 Subtotal := titleCase field.Subtotal }] })
      opts

/-- getPivotTable provides a function to get a pivot table definition by
given worksheet name, pivot table XML path and pivot cache relationship
XML path.  Part readers return the zero value for an absent part, the way
`pivotTableReader` / `pivotCacheReader` do. -/
def getPivotTable (f : File) (sheet pivotTableXML pivotCacheRels : String) :
    Except Err PivotTableOptions :=
  let rels := f.rels pivotCacheRels
  let pivotCacheXML :=
    match rels.find? (fun v => v.«Type» == SourceRelationshipPivotCache) with
    | some v => goReplaceAll v.Target ".." "xl"
    | none => ""
  let pc := (f.pivotCacheParts pivotCacheXML).getD {}
  let pt := (f.pivotTableParts pivotTableXML).getD {}
  let opts : PivotTableOptions :=
    { pivotTableXML := pivotTableXML
      pivotCacheXML := pivotCacheXML
      pivotSheetName := sheet
      DataRange :=
        pc.CacheSource.WorksheetSource.Sheet ++ "!" ++ pc.CacheSource.WorksheetSource.Ref
      PivotTableRange := sheet ++ "!" ++ pt.LocationRef
      Name := pt.Name }
  let opts :=
    if pc.CacheSource.WorksheetSource.Name ≠ "" then
      let o := { opts with DataRange := pc.CacheSource.WorksheetSource.Name }
      match getPivotTableDataRange f o with
      | .ok o2 => o2
      | .error _ => o
    else opts
  let opts := { opts with
    RowGrandTotals := pt.RowGrandTotals.getD opts.RowGrandTotals
    ColGrandTotals := pt.ColGrandTotals.getD opts.ColGrandTotals
    ShowDrill := pt.ShowDrill.getD opts.ShowDrill
    UseAutoFormatting := pt.UseAutoFormatting.getD opts.UseAutoFormatting
    PageOverThenDown := pt.PageOverThenDown.getD opts.PageOverThenDown
    MergeItem := pt.MergeItem.getD opts.MergeItem
    CompactData := pt.CompactData.getD opts.CompactData
    ShowError := pt.ShowError.getD opts.ShowError }
  let opts :=
    match pt.StyleInfo with
    | some si =>
      { opts with
          ShowRowHeaders := si.ShowRowHeaders
          ShowColHeaders := si.ShowColHeaders
          ShowRowStripes := si.ShowRowStripes
          ShowColStripes := si.ShowColStripes
          ShowLastColumn := si.ShowLastColumn
          PivotTableStyleName := si.Name }
    | none => opts
  match getTableFieldsOrder f opts with
  | .error e => .error e
  | .ok (order, opts) => .ok (extractPivotTableFields order pt opts)

/-- The relationship loop of `GetPivotTables`; a failing table aborts the
scan, returning the tables accumulated so far together with the error. -/
def getPivotTablesAux (f : File) (sheet : String) :
    List Relationship → List PivotTableOptions × Option Err
  | [] => ([], none)
  | v :: rest =>
    if v.«Type» == SourceRelationshipPivotTable then
      let pivotTableXML := goReplaceAll v.Target ".." "xl"
      let pivotCacheRels := "xl/pivotTables/_rels/" ++ filepathBase v.Target ++ ".rels"
      match getPivotTable f sheet pivotTableXML pivotCacheRels with
      | .error e => ([], some e)
      | .ok pivotTable =>
        let r := getPivotTablesAux f sheet rest
        (pivotTable :: r.1, r.2)
    else getPivotTablesAux f sheet rest

/-- GetPivotTables returns all pivot table definitions in a worksheet by
given worksheet name.  Mirroring the Go return convention, an error comes
with the partial list accumulated before it. -/
def GetPivotTables (f : File) (sheet : String) : List PivotTableOptions × Option Err :=
  match getSheetXMLPath f sheet with
  | none => ([], some (.sheetNotExist sheet))
  | some name =>
    let rels := "xl/worksheets/_rels/" ++ trimPre name "xl/worksheets/" ++ ".rels"
    getPivotTablesAux f sheet (f.rels rels)

/-- deleteWorkbookPivotCache remove workbook pivot cache and pivot cache
relationships. -/
def deleteWorkbookPivotCache (f : File) (opt : PivotTableOptions) : File × Option Err :=
  let r := deleteWorkbookRels f SourceRelationshipPivotCache
    (trimPre (trimPre opt.pivotCacheXML "/") "xl/")
  let f := r.1
  let rID := r.2
  match f.workbook.PivotCaches with
  | none => (f, none)
  | some pcs =>
    let pcs := pcs.filter fun pivotCache => pivotCache.RID ≠ rID
    ({ f with workbook := { PivotCaches := if pcs.isEmpty then none else some pcs } }, none)

/-- The cross-sheet cache reference count `pivotTableCaches` that
`DeletePivotTable` builds: the number of extracted pivot tables over every
sheet whose cache part path equals `cachePath` (per-sheet extraction
errors are discarded, keeping the partial lists, as in the source). -/
def pivotCacheRefCount (f : File) (cachePath : String) : Nat :=
  (f.sheetPaths.map fun sp =>
      ((GetPivotTables f sp.1).1.filter fun o => o.pivotCacheXML == cachePath).length).sum

/-- The inner loop of `DeletePivotTable`'s match search: the first
extracted table matching the deletion target for one sheet
relationship. -/
def findDelTargetInner (v : Relationship) (name : String) :
    List PivotTableOptions → Option PivotTableOptions
  | [] => none
  | opt :: rest =>
    if v.«Type» = SourceRelationshipPivotTable ∧ opt.Name = name ∧
        opt.pivotTableXML = goReplaceAll v.Target ".." "xl" then
      some opt
    else findDelTargetInner v name rest

/-- The nested search of `DeletePivotTable`: the first (relationship,
extracted table) pair matching the deletion target. -/
def findDelTarget (name : String) (opts : List PivotTableOptions) :
    List Relationship → Option (Relationship × PivotTableOptions)
  | [] => none
  | v :: rest =>
    match findDelTargetInner v name opts with
    | some opt => some (v, opt)
    | none => findDelTarget name opts rest

/-- DeletePivotTable delete a pivot table by giving the worksheet name and
pivot table name.  The returned file is the (possibly) mutated state; the
error paths return the input state unchanged. -/
def DeletePivotTable (f : File) (sheet name : String) : File × Option Err :=
  match getSheetXMLPath f sheet with
  | none => (f, some (.sheetNotExist sheet))
  | some sheetXML =>
    let relPath := "xl/worksheets/_rels/" ++ trimPre sheetXML "xl/worksheets/" ++ ".rels"
    let sheetRels := f.rels relPath
    match GetPivotTables f sheet with
    | (_, some e) => (f, some e)
    | (opts, none) =>
      match findDelTarget name opts sheetRels with
      | some vopt =>
        let r :=
          if pivotCacheRefCount f vopt.2.pivotCacheXML = 1 then
            deleteWorkbookPivotCache f vopt.2
          else (f, none)
        (deleteSheetRelationships r.1 sheet vopt.1.ID, r.2)
      | none => (f, some (.noExistTable name))

/-! ## General lemmas about the embedding -/

theorem inPivotTableFieldAux_ne_neg_iff (x : String) (l : List PivotTableField) (idx : Nat) :
    inPivotTableFieldAux x l idx ≠ -1 ↔ ∃ fld ∈ l, fld.Data = x := by
  induction l generalizing idx with
  | nil => simp [inPivotTableFieldAux]
  | cons n rest ih =>
    by_cases h : x = n.Data
    · simp only [inPivotTableFieldAux, if_pos h]
      constructor
      · intro _
        exact ⟨n, List.mem_cons_self n rest, h.symm⟩
      · intro _
        omega
    · simp only [inPivotTableFieldAux, if_neg h]
      rw [ih]
      constructor
      · rintro ⟨fld, hm, hd⟩
        exact ⟨fld, List.mem_cons_of_mem _ hm, hd⟩
      · rintro ⟨fld, hm, hd⟩
        rcases List.mem_cons.mp hm with h1 | h1
        · exact absurd (h1 ▸ hd).symm h
        · exact ⟨fld, h1, hd⟩

theorem inPivotTableField_ne_neg_iff (a : List PivotTableField) (x : String) :
    inPivotTableField a x ≠ -1 ↔ ∃ fld ∈ a, fld.Data = x := by
  exact inPivotTableFieldAux_ne_neg_iff x a 0

theorem inPivotTableField_eq_neg_iff (a : List PivotTableField) (x : String) :
    inPivotTableField a x = -1 ↔ ∀ fld ∈ a, fld.Data ≠ x := by
  constructor
  · intro h fld hm hd
    exact (inPivotTableField_ne_neg_iff a x).mpr ⟨fld, hm, hd⟩ h
  · intro h
    by_contra hne
    obtain ⟨fld, hm, hd⟩ := (inPivotTableField_ne_neg_iff a x).mp hne
    exact h fld hm hd

theorem getPivotTableFieldNameAux_empty (name : String)
    (pairs : List (PivotTableField × String)) (h : ∀ p ∈ pairs, p.1.Data ≠ name) :
    getPivotTableFieldNameAux name pairs = "" := by
  induction pairs with
  | nil => rfl
  | cons p rest ih =>
    have hp := h p (List.mem_cons_self p rest)
    simp only [getPivotTableFieldNameAux, if_neg hp]
    exact ih fun q hq => h q (List.mem_cons_of_mem _ hq)

theorem getPivotTableFieldName_empty (name : String) (fields : List PivotTableField)
    (h : ∀ fld ∈ fields, fld.Data ≠ name) :
    getPivotTableFieldName name fields = "" := by
  apply getPivotTableFieldNameAux_empty
  intro p hp
  exact h p.1 (List.of_mem_zip hp).1

/-! ## Concrete fixtures used by witnesses -/

instance : Inhabited File := ⟨{}⟩

/-- A one-sheet document whose data rectangle `Sheet1!A1:D3` carries the
header row `Month, Year, Sales, Region`. -/
def exFile : File :=
  { sheetPaths := [("Sheet1", "xl/worksheets/sheet1.xml")]
    cells := fun s c r =>
      if s = "Sheet1" ∧ r = 1 then
        if c = 1 then "Month"
        else if c = 2 then "Year"
        else if c = 3 then "Sales"
        else if c = 4 then "Region"
        else ""
      else "" }

/-- Options over `exFile`'s rectangle with one field on each axis. -/
def exOpts : PivotTableOptions :=
  { DataRange := "Sheet1!A1:D3"
    PivotTableRange := "Sheet1!G2:M34"
    Rows := [{ Data := "Month" }]
    Columns := [{ Data := "Year" }]
    Filter := [{ Data := "Region", Name := "Override" }]
    Data := [{ Data := "Sales", Name := "Summarize", Subtotal := "Sum" }] }

/-- The same options with their data range already resolved, as
`parseFormatPivotTableSet` leaves them. -/
def exOptsResolved : PivotTableOptions :=
  { exOpts with pivotDataRange := "Sheet1!A1:D3", pivotSheetName := "Sheet1" }

/-! ## Claim C1: column-field synthesis -/

/-- C1: with zero entries in `opts.Columns`, at most one data field means
no `ColFields` list is created and two or more data fields mean exactly
the one sentinel entry `[-2]`; with explicit columns the resolved column
field indices are emitted in order with the `-2` sentinel appended after
them exactly when `opts.Data` has two or more entries. -/
theorem addPivotColFields_colFieldSynthesis (f : File) (pt : xlsxPivotTableDefinition)
    (opts : PivotTableOptions) :
    (opts.Columns = [] → opts.Data.length ≤ 1 → addPivotColFields f pt opts = (pt, none)) ∧
    (opts.Columns = [] → 1 < opts.Data.length →
      addPivotColFields f pt opts =
        ({ pt with ColFields := some { Count := 1, Field := [{ X := -2 }] } }, none)) ∧
    (opts.Columns ≠ [] → ∀ idxs, getPivotFieldsIndex f opts.Columns opts = .ok idxs →
      addPivotColFields f pt opts =
        ({ pt with
            ColFields := some
              { Count := (idxs.map (fun i => ({ X := i } : xlsxField)) ++
                  if 1 < opts.Data.length then [({ X := -2 } : xlsxField)] else []).length
                Field := idxs.map (fun i => ({ X := i } : xlsxField)) ++
                  if 1 < opts.Data.length then [({ X := -2 } : xlsxField)] else [] } }, none)) := by
  refine ⟨?_, ?_, ?_⟩
  · intro hcols hdata
    have hlen : opts.Columns.length = 0 := by simp [hcols]
    simp only [addPivotColFields, if_pos hlen, if_pos hdata]
  · intro hcols hdata
    have hlen : opts.Columns.length = 0 := by simp [hcols]
    have hnotle : ¬ opts.Data.length ≤ 1 := by omega
    simp only [addPivotColFields, if_pos hlen, if_neg hnotle]
  · intro hcols idxs hidx
    have hlen : ¬ opts.Columns.length = 0 := by
      simpa [List.length_eq_zero] using hcols
    simp only [addPivotColFields, if_neg hlen, hidx]
    by_cases hdata : 1 < opts.Data.length
    · have : opts.Data.length > 1 := hdata
      simp only [if_pos hdata, gt_iff_lt]
    · simp only [if_neg hdata, gt_iff_lt, List.append_nil]

/-- Witness for C1: the three branches at concrete inputs over `exFile`. -/
theorem addPivotColFields_colFieldSynthesis_witness :
    addPivotColFields exFile {} { Data := [{ Data := "Sales" }] } = ({}, none) ∧
    addPivotColFields exFile {}
        { Data := [{ Data := "Sales" }, { Data := "Year" }] } =
      ({ ColFields := some { Count := 1, Field := [{ X := -2 }] } }, none) ∧
    addPivotColFields exFile {}
        { exOptsResolved with Data := [{ Data := "Sales" }, { Data := "Month" }] } =
      ({ ColFields := some { Count := 2, Field := [{ X := 1 }, { X := -2 }] } }, none) := by
  refine ⟨?_, ?_, ?_⟩
  · exact (addPivotColFields_colFieldSynthesis exFile {} _).1 rfl (by decide)
  · exact (addPivotColFields_colFieldSynthesis exFile {} _).2.1 rfl (by decide)
  · have h := (addPivotColFields_colFieldSynthesis exFile {}
      { exOptsResolved with Data := [{ Data := "Sales" }, { Data := "Month" }] }).2.2
      (by decide) [1] (by decide)
    simpa using h

/-! ## Claim C4: first-match axis classification -/

/-- C4: for every name of the field order exactly one per-column
descriptor is emitted (the descriptor list has the field order's length),
and a name appearing in several axis lists is classified by first-match
precedence Rows, then Filter, then Columns, then Data, then an empty
unclassified descriptor. -/
theorem addPivotFields_firstMatchClassification (f : File) (pt : xlsxPivotTableDefinition)
    (opts : PivotTableOptions) (order : List String) (o' : PivotTableOptions)
    (H : getTableFieldsOrder f opts = .ok (order, o'))
    (H0 : pt.PivotFields.PivotField = []) :
    ((addPivotFields f pt opts).1).PivotFields.PivotField.length = order.length ∧
    ∀ (i : Nat) (name : String) (fld : xlsxPivotField), order[i]? = some name →
      ((addPivotFields f pt opts).1).PivotFields.PivotField[i]? = some fld →
      ((∃ x ∈ opts.Rows, x.Data = name) → fld.Axis = "axisRow") ∧
      ((∀ x ∈ opts.Rows, x.Data ≠ name) → (∃ x ∈ opts.Filter, x.Data = name) →
        fld.Axis = "axisPage") ∧
      ((∀ x ∈ opts.Rows, x.Data ≠ name) → (∀ x ∈ opts.Filter, x.Data ≠ name) →
        (∃ x ∈ opts.Columns, x.Data = name) → fld.Axis = "axisCol") ∧
      ((∀ x ∈ opts.Rows, x.Data ≠ name) → (∀ x ∈ opts.Filter, x.Data ≠ name) →
        (∀ x ∈ opts.Columns, x.Data ≠ name) → (∃ x ∈ opts.Data, x.Data = name) →
        fld = ({ DataField := true } : xlsxPivotField)) ∧
      ((∀ x ∈ opts.Rows, x.Data ≠ name) → (∀ x ∈ opts.Filter, x.Data ≠ name) →
        (∀ x ∈ opts.Columns, x.Data ≠ name) → (∀ x ∈ opts.Data, x.Data ≠ name) →
        fld = ({} : xlsxPivotField)) := by
  have hf : ((addPivotFields f pt opts).1).PivotFields.PivotField =
      order.map (pivotFieldForName opts) := by
    simp [addPivotFields, H, H0]
  constructor
  · simp [hf]
  · intro i name fld hname hfld
    rw [hf, List.getElem?_map, hname, Option.map_some'] at hfld
    have hfld' : fld = pivotFieldForName opts name := (Option.some.injEq _ _ ▸ hfld).symm
    subst hfld'
    refine ⟨?_, ?_, ?_, ?_, ?_⟩
    · intro hr
      have hc := (inPivotTableField_ne_neg_iff opts.Rows name).mpr hr
      simp only [pivotFieldForName, if_pos hc]
    · intro hr hfil
      have hcr := (inPivotTableField_eq_neg_iff opts.Rows name).mpr hr
      have hcf := (inPivotTableField_ne_neg_iff opts.Filter name).mpr hfil
      simp only [pivotFieldForName, if_neg (not_not_intro hcr), if_pos hcf]
    · intro hr hfil hcol
      have hcr := (inPivotTableField_eq_neg_iff opts.Rows name).mpr hr
      have hcf := (inPivotTableField_eq_neg_iff opts.Filter name).mpr hfil
      have hcc := (inPivotTableField_ne_neg_iff opts.Columns name).mpr hcol
      simp only [pivotFieldForName, if_neg (not_not_intro hcr), if_neg (not_not_intro hcf),
        if_pos hcc]
    · intro hr hfil hcol hd
      have hcr := (inPivotTableField_eq_neg_iff opts.Rows name).mpr hr
      have hcf := (inPivotTableField_eq_neg_iff opts.Filter name).mpr hfil
      have hcc := (inPivotTableField_eq_neg_iff opts.Columns name).mpr hcol
      have hcd := (inPivotTableField_ne_neg_iff opts.Data name).mpr hd
      simp only [pivotFieldForName, if_neg (not_not_intro hcr), if_neg (not_not_intro hcf),
        if_neg (not_not_intro hcc), if_pos hcd]
    · intro hr hfil hcol hd
      have hcr := (inPivotTableField_eq_neg_iff opts.Rows name).mpr hr
      have hcf := (inPivotTableField_eq_neg_iff opts.Filter name).mpr hfil
      have hcc := (inPivotTableField_eq_neg_iff opts.Columns name).mpr hcol
      have hcd := (inPivotTableField_eq_neg_iff opts.Data name).mpr hd
      simp only [pivotFieldForName, if_neg (not_not_intro hcr), if_neg (not_not_intro hcf),
        if_neg (not_not_intro hcc), if_neg (not_not_intro hcd)]

/-- Witness for C4: over `exFile` four descriptors are emitted and the
fourth (the filter field "Region") classifies to the page axis. -/
theorem addPivotFields_firstMatchClassification_witness :
    ((addPivotFields exFile {} exOptsResolved).1).PivotFields.PivotField.length = 4 ∧
    (((addPivotFields exFile {} exOptsResolved).1).PivotFields.PivotField[3]?.map
      fun fld => fld.Axis) = some "axisPage" := by
  have h := addPivotFields_firstMatchClassification exFile {} exOptsResolved
    ["Month", "Year", "Sales", "Region"] exOptsResolved (by decide) rfl
  constructor
  · rw [h.1]
    rfl
  · obtain ⟨fld, hfld⟩ :
        ∃ fld, ((addPivotFields exFile ({} : xlsxPivotTableDefinition)
          exOptsResolved).1).PivotFields.PivotField[3]? = some fld := ⟨_, rfl⟩
    rw [hfld, Option.map_some']
    have := (h.2 3 "Region" fld (by decide) hfld).2.1 (by decide) (by decide)
    rw [this]

/-! ## Claim C9: a filter field's descriptor name is looked up in Columns -/

/-- C9: for a field classified onto the filter (page) axis the emitted
descriptor name is looked up in the caller's `Columns` list, so when the
name is absent from `Columns` the descriptor name is empty and a `Name`
override on the `Filter` entry is not carried over. -/
theorem pageFieldDescriptorName_fromColumns (opts : PivotTableOptions) (name : String)
    (h1 : ∀ x ∈ opts.Rows, x.Data ≠ name)
    (h2 : ∃ x ∈ opts.Filter, x.Data = name)
    (h3 : ∀ x ∈ opts.Columns, x.Data ≠ name) :
    (pivotFieldForName opts name).Axis = "axisPage" ∧
    (pivotFieldForName opts name).Name = "" := by
  have hcr := (inPivotTableField_eq_neg_iff opts.Rows name).mpr h1
  have hcf := (inPivotTableField_ne_neg_iff opts.Filter name).mpr h2
  constructor
  · simp only [pivotFieldForName, if_neg (not_not_intro hcr), if_pos hcf]
  · simp only [pivotFieldForName, if_neg (not_not_intro hcr), if_pos hcf]
    exact getPivotTableFieldName_empty name opts.Columns h3

/-- Witness for C9: the "Region" filter field of `exOptsResolved` carries
the override name "Override", yet its descriptor name is empty because
"Region" is not among the columns. -/
theorem pageFieldDescriptorName_fromColumns_witness :
    (∃ x ∈ exOptsResolved.Filter, x.Data = "Region" ∧ x.Name = "Override") ∧
    (pivotFieldForName exOptsResolved "Region").Name = "" := by
  refine ⟨by decide, ?_⟩
  exact (pageFieldDescriptorName_fromColumns exOptsResolved "Region"
    (by decide) (by decide) (by decide)).2

/-! ## Claim C6: rectangle normalization algebra -/

/-- Evaluation shape of `adjustRange` once the reference has parsed: the
same-cell check precedes the corner reordering, which sorts each axis. -/
theorem adjustRange_eval (s sh r : String) (x1 y1 x2 y2 : Int)
    (hs : splitStr s '!' = [sh, r])
    (hp : rangeRefToCoordinates (goReplaceAll r "$" "") = .ok (x1, y1, x2, y2)) :
    adjustRange s =
      if x1 = x2 ∧ y1 = y2 then .error .parameterInvalid
      else .ok (sh, [min x1 x2, min y1 y2, max x1 x2, max y1 y2]) := by
  have hlen : ¬ s.data.length < 1 := by
    intro h
    have h0 : s.data = [] := by
      cases hd : s.data with
      | nil => rfl
      | cons a l => rw [hd] at h; simp at h
    rw [splitStr, h0] at hs
    simp [splitOnChar] at hs
  unfold adjustRange
  rw [if_neg hlen, hs]
  dsimp only
  rw [hp]
  dsimp only
  by_cases hsame : x1 = x2 ∧ y1 = y2
  · rw [if_pos hsame, if_pos hsame]
  · rw [if_neg hsame, if_neg hsame]
    by_cases hx : x2 < x1 <;> by_cases hy : y2 < y1
    · rw [if_pos hx, if_pos hy]
      rw [min_eq_right hx.le, min_eq_right hy.le, max_eq_left hx.le, max_eq_left hy.le]
    · rw [if_pos hx, if_neg hy]
      rw [min_eq_right hx.le, min_eq_left (le_of_not_lt hy), max_eq_left hx.le,
        max_eq_right (le_of_not_lt hy)]
    · rw [if_neg hx, if_pos hy]
      rw [min_eq_left (le_of_not_lt hx), min_eq_right hy.le,
        max_eq_right (le_of_not_lt hx), max_eq_left hy.le]
    · rw [if_neg hx, if_neg hy]
      rw [min_eq_left (le_of_not_lt hx), min_eq_left (le_of_not_lt hy),
        max_eq_right (le_of_not_lt hx), max_eq_right (le_of_not_lt hy)]

/-- C6: rectangle normalization is corner-order-invariant (swapping the
two corners of a sheet-qualified reference yields the identical result),
always returns ordered coordinates, leaves an already-normalized range
unchanged, and rejects a same-cell reference with the invalid-parameter
error. -/
theorem adjustRange_cornerOrderInvariant (s t sh r1 r2 : String) (x1 y1 x2 y2 : Int)
    (hs : splitStr s '!' = [sh, r1]) (ht : splitStr t '!' = [sh, r2])
    (hp1 : rangeRefToCoordinates (goReplaceAll r1 "$" "") = .ok (x1, y1, x2, y2))
    (hp2 : rangeRefToCoordinates (goReplaceAll r2 "$" "") = .ok (x2, y2, x1, y1)) :
    adjustRange s = adjustRange t ∧
    (¬(x1 = x2 ∧ y1 = y2) →
      adjustRange s = .ok (sh, [min x1 x2, min y1 y2, max x1 x2, max y1 y2]) ∧
      min x1 x2 ≤ max x1 x2 ∧ min y1 y2 ≤ max y1 y2) ∧
    (x1 ≤ x2 → y1 ≤ y2 → ¬(x1 = x2 ∧ y1 = y2) →
      adjustRange s = .ok (sh, [x1, y1, x2, y2])) ∧
    (x1 = x2 → y1 = y2 → adjustRange s = .error .parameterInvalid) := by
  have e1 := adjustRange_eval s sh r1 x1 y1 x2 y2 hs hp1
  have e2 := adjustRange_eval t sh r2 x2 y2 x1 y1 ht hp2
  refine ⟨?_, ?_, ?_, ?_⟩
  · rw [e1, e2]
    by_cases hsame : x1 = x2 ∧ y1 = y2
    · have hsame' : x2 = x1 ∧ y2 = y1 := ⟨hsame.1.symm, hsame.2.symm⟩
      rw [if_pos hsame, if_pos hsame']
    · have hsame' : ¬(x2 = x1 ∧ y2 = y1) := fun h => hsame ⟨h.1.symm, h.2.symm⟩
      rw [if_neg hsame, if_neg hsame', min_comm x2 x1, min_comm y2 y1, max_comm x2 x1,
        max_comm y2 y1]
  · intro hsame
    rw [e1, if_neg hsame]
    exact ⟨rfl, min_le_max, min_le_max⟩
  · intro hx hy hsame
    rw [e1, if_neg hsame, min_eq_left hx, min_eq_left hy, max_eq_right hx, max_eq_right hy]
  · intro hx hy
    rw [e1, if_pos ⟨hx, hy⟩]

/-- Witness for C6: the spec's own examples, plus the same-cell
rejection. -/
theorem adjustRange_cornerOrderInvariant_witness :
    adjustRange "Sheet1!E31:A1" = adjustRange "Sheet1!A1:E31" ∧
    adjustRange "Sheet1!E31:A1" = .ok ("Sheet1", [1, 1, 5, 31]) ∧
    adjustRange "Sheet1!A1:A1" = .error .parameterInvalid := by
  have h := adjustRange_cornerOrderInvariant "Sheet1!E31:A1" "Sheet1!A1:E31" "Sheet1"
    "E31:A1" "A1:E31" 5 31 1 1 (by decide) (by decide) (by decide) (by decide)
  have h' := adjustRange_cornerOrderInvariant "Sheet1!A1:E31" "Sheet1!E31:A1" "Sheet1"
    "A1:E31" "E31:A1" 1 1 5 31 (by decide) (by decide) (by decide) (by decide)
  have hsame := adjustRange_cornerOrderInvariant "Sheet1!A1:A1" "Sheet1!A1:A1" "Sheet1"
    "A1:A1" "A1:A1" 1 1 1 1 (by decide) (by decide) (by decide) (by decide)
  refine ⟨h.1, ?_, hsame.2.2.2 rfl rfl⟩
  rw [h.1]
  exact h'.2.2.1 (by decide) (by decide) (by decide)

/-! ## Claim C2: axis names absent from the field order

The source's `getPivotFieldsIndex` only appends positions of names it
finds (`if pos != -1`), so a name absent from the field order is silently
dropped and no error is raised anywhere on the creation path. -/

/-- Options whose only row field names a column absent from `exFile`'s
header row. -/
def c2Opts : PivotTableOptions :=
  { DataRange := "Sheet1!A1:D3"
    PivotTableRange := "Sheet1!G2:M34"
    Rows := [{ Data := "Missing" }]
    Data := [{ Data := "Sales" }] }

/-- Counterexample to C2: the row field "Missing" is absent from the field
order `[Month, Year, Sales, Region]`, yet `AddPivotTable` succeeds instead
of failing with the data-range/invalid-parameter error. -/
theorem getPivotFieldsIndex_missingName_counterexample :
    (∃ x ∈ c2Opts.Rows,
      ∀ nm ∈ (["Month", "Year", "Sales", "Region"] : List String), nm ≠ x.Data) ∧
    getTableFieldsOrder exFile { c2Opts with pivotSheetName := "Sheet1" } =
      .ok (["Month", "Year", "Sales", "Region"],
        { c2Opts with pivotSheetName := "Sheet1", pivotDataRange := "Sheet1!A1:D3" }) ∧
    ∃ f', AddPivotTable exFile c2Opts = .ok f' := by
  exact ⟨by decide, by decide, ⟨_, rfl⟩⟩

/-- The filtered-map form of the index resolution. -/
theorem getPivotFieldsIndexList_eq_filter (orders : List String)
    (fields : List PivotTableField) :
    (fields.filterMap fun field =>
      let pos := inStrSlice orders field.Data true
      if pos ≠ -1 then some pos else none) =
      (fields.map fun field => inStrSlice orders field.Data true).filter fun i => i ≠ -1 := by
  induction fields with
  | nil => rfl
  | cons fld rest ih =>
    by_cases h : inStrSlice orders fld.Data true ≠ -1
    · simp only [List.filterMap_cons, List.map_cons, List.filter_cons, if_pos h]
      rw [ih]
      simp [h]
    · simp only [List.filterMap_cons, List.map_cons, List.filter_cons, if_neg h]
      rw [ih]
      simp [h]

/-- C2 amended: index resolution of an axis list never fails on a name
absent from the field order; it silently skips such names, returning the
indices of the found names in order, and every axis-list builder succeeds
whenever the field order itself resolves. -/
theorem getPivotFieldsIndex_skipsMissingNames (f : File) (opts : PivotTableOptions)
    (order : List String) (o' : PivotTableOptions)
    (H : getTableFieldsOrder f opts = .ok (order, o')) :
    (∀ fields, getPivotFieldsIndex f fields opts =
      .ok ((fields.map fun field => inStrSlice order field.Data true).filter
        fun i => i ≠ -1)) ∧
    ∀ pt, (addPivotRowFields f pt opts).2 = none ∧
      (addPivotColFields f pt opts).2 = none ∧
      (addPivotPageFields f pt opts).2 = none ∧
      (addPivotDataFields f pt opts).2 = none := by
  have hidx : ∀ fields, getPivotFieldsIndex f fields opts =
      .ok ((fields.map fun field => inStrSlice order field.Data true).filter
        fun i => i ≠ -1) := by
    intro fields
    unfold getPivotFieldsIndex
    rw [H]
    dsimp only
    rw [getPivotFieldsIndexList_eq_filter]
  refine ⟨hidx, fun pt => ⟨?_, ?_, ?_, ?_⟩⟩
  · unfold addPivotRowFields
    rw [hidx opts.Rows]
  · unfold addPivotColFields
    by_cases h0 : opts.Columns.length = 0
    · rw [if_pos h0]
      by_cases h1 : opts.Data.length ≤ 1
      · rw [if_pos h1]
      · rw [if_neg h1]
    · rw [if_neg h0, hidx opts.Columns]
  · unfold addPivotPageFields
    rw [hidx opts.Filter]
  · unfold addPivotDataFields
    rw [hidx opts.Data]

/-- Witness for the amended C2: over `exFile` a row list naming "Missing"
and "Year" resolves to `[1]` (the missing name skipped) with no error. -/
theorem getPivotFieldsIndex_skipsMissingNames_witness :
    getPivotFieldsIndex exFile [{ Data := "Missing" }, { Data := "Year" }]
      { c2Opts with pivotSheetName := "Sheet1" } = .ok [1] ∧
    (addPivotRowFields exFile {}
      { c2Opts with pivotSheetName := "Sheet1" }).2 = none := by
  have h := getPivotFieldsIndex_skipsMissingNames exFile
    { c2Opts with pivotSheetName := "Sheet1" } ["Month", "Year", "Sales", "Region"]
    { c2Opts with pivotSheetName := "Sheet1", pivotDataRange := "Sheet1!A1:D3" }
    (by decide)
  constructor
  · rw [h.1 [{ Data := "Missing" }, { Data := "Year" }]]
    decide
  · exact (h.2 {}).1

/-! ## Claim C7: the 255-unit name policy -/

theorem getPivotTableDataRange_error_shape (f : File) (opts : PivotTableOptions) (e : Err)
    (H : getPivotTableDataRange f opts = .error e) : ∃ e', e = .dataRange e' := by
  unfold getPivotTableDataRange at H
  dsimp only at H
  repeat' split at H
  all_goals first
    | (injection H with h; exact ⟨_, h.symm⟩)
    | injection H

theorem addPivotCache_error_shape (f : File) (opts : PivotTableOptions) (e : Err)
    (H : addPivotCache f opts = .error e) : ∃ e', e = .dataRange e' := by
  unfold addPivotCache at H
  dsimp only at H
  repeat' split at H
  all_goals first
    | (injection H with h; exact ⟨_, h.symm⟩)
    | injection H

theorem addPivotTableDef_error_shape (f : File) (cacheID : Int) (pivotTableID : Nat)
    (opts : PivotTableOptions) (e : Err)
    (H : addPivotTable f cacheID pivotTableID opts = .error e) :
    ∃ e', e = .tableRange e' := by
  unfold addPivotTable at H
  split at H
  · injection H with h
    exact ⟨_, h.symm⟩
  · exact absurd H (by simp)

theorem parseFormatPivotTableSet_nameLength (f : File) (opts : PivotTableOptions)
    (H : parseFormatPivotTableSet f opts = .error .nameLength) :
    MaxFieldLength < opts.Name.data.length := by
  unfold parseFormatPivotTableSet at H
  split at H
  · injection H with h
    simp at h
  · by_cases hname : MaxFieldLength < opts.Name.data.length
    · exact hname
    · rw [if_neg hname] at H
      dsimp only at H
      split at H
      · rename_i e heq2
        injection H with h
        obtain ⟨e', he⟩ := getPivotTableDataRange_error_shape f _ e heq2
        rw [h] at he
        simp at he
      · split at H
        · injection H with h
          simp at h
        · split at H
          · rename_i e heq4
            unfold workSheetReader at heq4
            split at heq4
            · injection heq4 with h4
              injection H with h
              rw [← h4] at h
              simp at h
            · exact absurd heq4 (by simp)
          · split at H
            · injection H with h
              simp at h
            · exact absurd H (by simp)

theorem AddPivotTable_error_shape (f : File) (opts : PivotTableOptions) (e : Err)
    (H : AddPivotTable f opts = .error e) :
    parseFormatPivotTableSet f opts = .error e ∨
      (∃ e', e = .dataRange e') ∨ ∃ e', e = .tableRange e' := by
  unfold AddPivotTable at H
  split at H
  · rename_i e' heq
    injection H with h
    exact Or.inl (h ▸ heq)
  · dsimp only at H
    split at H
    · rename_i e' heq2
      injection H with h
      exact Or.inr (Or.inl (h ▸ addPivotCache_error_shape _ _ e' heq2))
    · split at H
      · rename_i e' heq3
        injection H with h
        exact Or.inr (Or.inr (h ▸ addPivotTableDef_error_shape _ _ _ _ e' heq3))
      · split at H
        · rename_i e' heq4
          exact absurd heq4 (by simp [addContentTypePart])
        · exact absurd H (by simp [addContentTypePart])

/-- C7: `AddPivotTable` fails with the name-too-long error exactly when
the table name exceeds 255 units (given a well-formed pivot table range,
the check before the name check), while a field display name longer than
255 units never causes an error: the name list is emitted with the long
name truncated to exactly its first 255 units, shorter names verbatim,
every emitted name is at most 255 units, and the data-field builder still
succeeds whenever the field order resolves. -/
theorem AddPivotTable_nameLengthPolicy (f : File) (opts : PivotTableOptions) :
    ((∃ r, adjustRange opts.PivotTableRange = .ok r) →
      (AddPivotTable f opts = .error .nameLength ↔
        MaxFieldLength < opts.Name.data.length)) ∧
    (∀ (fields : List PivotTableField) (i : Nat) (fld : PivotTableField),
      fields[i]? = some fld →
      (MaxFieldLength < fld.Name.data.length →
        (getPivotTableFieldsName fields)[i]? = some (strTake fld.Name MaxFieldLength) ∧
        (strTake fld.Name MaxFieldLength).data.length = MaxFieldLength) ∧
      (fld.Name.data.length ≤ MaxFieldLength →
        (getPivotTableFieldsName fields)[i]? = some fld.Name)) ∧
    (∀ (fields : List PivotTableField) (nm : String),
      nm ∈ getPivotTableFieldsName fields → nm.data.length ≤ MaxFieldLength) ∧
    (∀ (order : List String) (o' : PivotTableOptions),
      getTableFieldsOrder f opts = .ok (order, o') →
      ∀ pt, (addPivotDataFields f pt opts).2 = none) := by
  refine ⟨?_, ?_, ?_, ?_⟩
  · rintro ⟨r, hr⟩
    constructor
    · intro H
      rcases AddPivotTable_error_shape f opts _ H with h | ⟨e', he'⟩ | ⟨e', he'⟩
      · exact parseFormatPivotTableSet_nameLength f opts h
      · exact absurd he' (by simp)
      · exact absurd he' (by simp)
    · intro hlong
      unfold AddPivotTable parseFormatPivotTableSet
      rw [hr]
      dsimp only
      rw [if_pos hlong]
  · intro fields i fld hfld
    constructor
    · intro hlong
      constructor
      · unfold getPivotTableFieldsName
        rw [List.getElem?_map, hfld, Option.map_some']
        rw [if_pos hlong]
      · simp only [strTake, List.length_take]
        omega
    · intro hshort
      unfold getPivotTableFieldsName
      rw [List.getElem?_map, hfld, Option.map_some']
      rw [if_neg (by omega)]
  · intro fields nm hnm
    unfold getPivotTableFieldsName at hnm
    obtain ⟨fld, _, hfld⟩ := List.mem_map.mp hnm
    by_cases hlong : MaxFieldLength < fld.Name.data.length
    · rw [if_pos hlong] at hfld
      rw [← hfld]
      simp only [strTake, List.length_take]
      omega
    · rw [if_neg hlong] at hfld
      rw [← hfld]
      omega
  · intro order o' H pt
    unfold addPivotDataFields
    unfold getPivotFieldsIndex
    rw [H]

set_option maxRecDepth 4000 in
/-- Witness for C7: over `exFile`, a 300-character table name is rejected
with the name-length error while a 300-character data-field name is
accepted and truncated to its first 255 characters. -/
theorem AddPivotTable_nameLengthPolicy_witness :
    AddPivotTable exFile { exOpts with Name := strRepeat 'n' 300 } = .error .nameLength ∧
    (getPivotTableFieldsName [{ Name := strRepeat 'n' 300 }])[0]? =
      some (strRepeat 'n' 255) ∧
    (strRepeat 'n' 255).data.length = 255 := by
  have h := AddPivotTable_nameLengthPolicy exFile { exOpts with Name := strRepeat 'n' 300 }
  have hlen300 : (strRepeat 'n' 300).data.length = 300 := by
    simp [strRepeat]
  refine ⟨?_, ?_, by simp [strRepeat]⟩
  · refine (h.1 ⟨("Sheet1", [7, 2, 13, 34]), by decide⟩).mpr ?_
    rw [hlen300]
    norm_num [MaxFieldLength]
  · have h2 := (h.2.1 [{ Name := strRepeat 'n' 300 }] 0 { Name := strRepeat 'n' 300 }
      rfl).1 (by rw [hlen300]; norm_num [MaxFieldLength])
    rw [h2.1]
    have ht : strTake (strRepeat 'n' 300) MaxFieldLength = strRepeat 'n' 255 := by
      simp [strTake, strRepeat, List.take_replicate, MaxFieldLength]
    rw [ht]

/-! ## Claim C5: cache fields mirror the header row -/

theorem strAppend_data (a b : String) : (a ++ b).data = a.data ++ b.data := by
  cases a
  cases b
  rfl

theorem append_bang_ne_empty (a b : String) : a ++ "!" ++ b ≠ "" := by
  intro h
  have hd : (a ++ "!" ++ b).data = "".data := congrArg String.data h
  rw [strAppend_data, strAppend_data] at hd
  have hb : "!".data = ['!'] := rfl
  rw [hb] at hd
  simp at hd

theorem getPivotTableDataRange_ok_props (f : File) (o o2 : PivotTableOptions)
    (H : getPivotTableDataRange f o = .ok o2) :
    o2.Name = o.Name ∧ o2.DataRange = o.DataRange ∧ o2.PivotTableRange = o.PivotTableRange ∧
    o2.Rows = o.Rows ∧ o2.Columns = o.Columns ∧ o2.Data = o.Data ∧ o2.Filter = o.Filter ∧
    o2.pivotTableXML = o.pivotTableXML ∧ o2.pivotCacheXML = o.pivotCacheXML ∧
    o.DataRange ≠ "" ∧ o2.pivotDataRange ≠ "" := by
  unfold getPivotTableDataRange at H
  dsimp only at H
  repeat' split at H
  all_goals first
    | (injection H with h; subst h;
       refine ⟨rfl, rfl, rfl, rfl, rfl, rfl, rfl, rfl, rfl, by assumption, ?_⟩;
       first
         | assumption
         | exact append_bang_ne_empty _ _)
    | injection H

theorem parseFormatPivotTableSet_ok_props (f : File) (opts : PivotTableOptions)
    (path : String) (o' : PivotTableOptions)
    (H : parseFormatPivotTableSet f opts = .ok (path, o')) :
    (∃ r, adjustRange opts.PivotTableRange = .ok r) ∧
    o'.Name = opts.Name ∧ o'.DataRange = opts.DataRange ∧
    o'.PivotTableRange = opts.PivotTableRange ∧ o'.Rows = opts.Rows ∧
    o'.Columns = opts.Columns ∧ o'.Data = opts.Data ∧ o'.Filter = opts.Filter ∧
    o'.pivotTableXML = opts.pivotTableXML ∧ o'.pivotCacheXML = opts.pivotCacheXML ∧
    o'.DataRange ≠ "" ∧ o'.pivotDataRange ≠ "" ∧
    ∃ ds co, adjustRange o'.pivotDataRange = .ok (ds, co) ∧
      ∃ p, getSheetXMLPath f ds = some p := by
  unfold parseFormatPivotTableSet at H
  split at H
  · injection H
  · rename_i sheetName co1 heq1
    split at H
    · injection H
    · dsimp only at H
      split at H
      · injection H
      · rename_i o2 heq2
        split at H
        · injection H
        · rename_i ds c2 heq3
          split at H
          · injection H
          · rename_i u heq4
            split at H
            · injection H
            · rename_i p heq5
              injection H with h
              rw [Prod.mk.injEq] at h
              obtain ⟨hp, ho⟩ := h
              subst ho
              have props := getPivotTableDataRange_ok_props f _ o2 heq2
              refine ⟨⟨_, heq1⟩, props.1, props.2.1, props.2.2.1, props.2.2.2.1,
                props.2.2.2.2.1, props.2.2.2.2.2.1, props.2.2.2.2.2.2.1,
                props.2.2.2.2.2.2.2.1, props.2.2.2.2.2.2.2.2.1,
                ?_, props.2.2.2.2.2.2.2.2.2.2, ds, c2, heq3, ?_⟩
              · rw [props.2.1]
                exact props.2.2.2.2.2.2.2.2.2.1
              · unfold workSheetReader at heq4
                split at heq4
                · injection heq4
                · exact ⟨_, by assumption⟩

/-- The header-row cell texts of one worksheet row across a column list. -/
def headerCells (f : File) (ds : String) (y1 : Int) (cols : List Int) : List String :=
  cols.map fun c => f.cells ds c y1

theorem readHeaderRow_ok (f : File) (ds : String) (y1 : Int) (p : String)
    (hsheet : getSheetXMLPath f ds = some p) (cols : List Int)
    (hne : ∀ nm ∈ headerCells f ds y1 cols, nm ≠ "") :
    readHeaderRow f ds y1 cols = .ok (headerCells f ds y1 cols) := by
  induction cols with
  | nil => rfl
  | cons c rest ih =>
    have hc : f.cells ds c y1 ≠ "" := hne _ (by simp [headerCells])
    have hrest := ih fun nm hm => hne nm (by simp [headerCells] at hm ⊢; exact Or.inr hm)
    unfold readHeaderRow
    unfold GetCellValue
    rw [hsheet]
    dsimp only
    rw [if_neg hc, hrest]
    rfl

theorem readHeaderRow_emptyCell (f : File) (ds : String) (y1 : Int) (p : String)
    (hsheet : getSheetXMLPath f ds = some p) (cols : List Int)
    (hempty : ∃ nm ∈ headerCells f ds y1 cols, nm = "") :
    readHeaderRow f ds y1 cols = .error .parameterInvalid := by
  induction cols with
  | nil => simp [headerCells] at hempty
  | cons c rest ih =>
    unfold readHeaderRow
    unfold GetCellValue
    rw [hsheet]
    dsimp only
    by_cases hc : f.cells ds c y1 = ""
    · rw [if_pos hc]
    · rw [if_neg hc]
      have hrest : ∃ nm ∈ headerCells f ds y1 rest, nm = "" := by
        obtain ⟨nm, hm, he⟩ := hempty
        simp only [headerCells, List.map_cons, List.mem_cons] at hm
        rcases hm with h1 | h1
        · exact absurd (h1 ▸ he) hc
        · exact ⟨nm, h1, he⟩
      rw [ih hrest]

theorem getPivotTableDataRange_memoized (f : File) (o : PivotTableOptions)
    (h1 : o.DataRange ≠ "") (h2 : o.pivotDataRange ≠ "") :
    getPivotTableDataRange f o = .ok o := by
  unfold getPivotTableDataRange
  rw [if_neg h1, if_pos h2]

theorem foldl_appendRowField_Name (l : List Int) (pt : xlsxPivotTableDefinition) :
    (l.foldl appendRowField pt).Name = pt.Name := by
  induction l generalizing pt with
  | nil => rfl
  | cons i rest ih => rw [List.foldl_cons, ih]; rfl

theorem foldl_appendPageField_Name (names : List String) (l : List (Nat × Int))
    (pt : xlsxPivotTableDefinition) :
    (l.foldl (appendPageField names) pt).Name = pt.Name := by
  induction l generalizing pt with
  | nil => rfl
  | cons i rest ih => rw [List.foldl_cons, ih]; rfl

theorem foldl_appendDataField_Name (names subs : List String) (l : List (Nat × Int))
    (pt : xlsxPivotTableDefinition) :
    (l.foldl (appendDataField names subs) pt).Name = pt.Name := by
  induction l generalizing pt with
  | nil => rfl
  | cons i rest ih => rw [List.foldl_cons, ih]; rfl

theorem addPivotFields_Name (f : File) (pt : xlsxPivotTableDefinition)
    (opts : PivotTableOptions) : ((addPivotFields f pt opts).1).Name = pt.Name := by
  unfold addPivotFields
  split <;> rfl

theorem addPivotRowFields_Name (f : File) (pt : xlsxPivotTableDefinition)
    (opts : PivotTableOptions) : ((addPivotRowFields f pt opts).1).Name = pt.Name := by
  unfold addPivotRowFields
  split
  · rfl
  · dsimp only
    split <;> exact foldl_appendRowField_Name _ pt

theorem addPivotColFields_Name (f : File) (pt : xlsxPivotTableDefinition)
    (opts : PivotTableOptions) : ((addPivotColFields f pt opts).1).Name = pt.Name := by
  unfold addPivotColFields
  split
  · split <;> rfl
  · split <;> rfl

theorem addPivotPageFields_Name (f : File) (pt : xlsxPivotTableDefinition)
    (opts : PivotTableOptions) : ((addPivotPageFields f pt opts).1).Name = pt.Name := by
  unfold addPivotPageFields
  split
  · rfl
  · dsimp only
    split <;> exact foldl_appendPageField_Name _ _ pt

theorem addPivotDataFields_Name (f : File) (pt : xlsxPivotTableDefinition)
    (opts : PivotTableOptions) : ((addPivotDataFields f pt opts).1).Name = pt.Name := by
  unfold addPivotDataFields
  split
  · rfl
  · dsimp only
    split <;> exact foldl_appendDataField_Name _ _ _ pt

/-- Shape of a successful table-part build: the part is stored at the
options' table path and its name is the caller's name, or a synthesized
`PivotTableN` when that is empty. -/
theorem addPivotTable_ok_shape (g : File) (cacheID : Int) (pivotTableID : Nat)
    (o : PivotTableOptions) (fb : File)
    (H : addPivotTable g cacheID pivotTableID o = .ok fb) :
    ∃ ptd, fb = saveTablePart g o.pivotTableXML ptd ∧
      ptd.Name = (if o.Name = "" then "PivotTable" ++ toString pivotTableID else o.Name) := by
  unfold addPivotTable at H
  split at H
  · injection H
  · dsimp only at H
    injection H with h
    refine ⟨_, h.symm, ?_⟩
    rw [addPivotDataFields_Name, addPivotPageFields_Name, addPivotColFields_Name,
      addPivotRowFields_Name]
    dsimp only
    rw [addPivotFields_Name]
    split <;> rfl

theorem addPivotTableDef_preserves_cacheParts (g : File) (cacheID : Int)
    (pivotTableID : Nat) (o : PivotTableOptions) (fb : File)
    (H : addPivotTable g cacheID pivotTableID o = .ok fb) :
    fb.pivotCacheParts = g.pivotCacheParts := by
  obtain ⟨ptd, hfb, _⟩ := addPivotTable_ok_shape g cacheID pivotTableID o fb H
  rw [hfb]
  rfl

/-- Decomposition of a successful `AddPivotTable` run into its cache and
table writes. -/
theorem AddPivotTable_ok_decomp (f : File) (opts : PivotTableOptions) (f' : File)
    (H : AddPivotTable f opts = .ok f') :
    ∃ path o' fc ptd,
      parseFormatPivotTableSet f opts = .ok (path, o') ∧
      addPivotCache f
        { o' with
            pivotTableXML :=
              goReplaceAll ("../pivotTables/pivotTable" ++
                toString (countPivotTables f + 1) ++ ".xml") ".." "xl"
            pivotCacheXML :=
              "xl/pivotCache/pivotCacheDefinition" ++
                toString (countPivotCache f + 1) ++ ".xml" } = .ok fc ∧
      f'.pivotCacheParts = fc.pivotCacheParts ∧
      f'.pivotTableParts
        (goReplaceAll ("../pivotTables/pivotTable" ++
          toString (countPivotTables f + 1) ++ ".xml") ".." "xl") = some ptd ∧
      ptd.Name =
        (if o'.Name = "" then "PivotTable" ++ toString (countPivotTables f + 1)
         else o'.Name) := by
  unfold AddPivotTable at H
  split at H
  · injection H
  · rename_i path0 pr heq1
    dsimp only at H
    split at H
    · injection H
    · rename_i fc heq2
      split at H
      · injection H
      · rename_i fb heq3
        dsimp only [addContentTypePart] at H
        injection H with h
        obtain ⟨ptd, hfb, hname⟩ := addPivotTable_ok_shape _ _ _ _ fb heq3
        refine ⟨path0, pr, fc, ptd, heq1, heq2, ?_, ?_, hname⟩
        · rw [← h, hfb]
          rfl
        · rw [← h, hfb]
          show (if _ = _ then some ptd else _) = some ptd
          rw [if_pos rfl]

theorem getTableFieldsOrder_eval (f : File) (o : PivotTableOptions) (ds : String)
    (x1 y1 x2 y2 : Int) (p : String)
    (h1 : o.DataRange ≠ "") (h2 : o.pivotDataRange ≠ "")
    (Ha : adjustRange o.pivotDataRange = .ok (ds, [x1, y1, x2, y2]))
    (hsheet : getSheetXMLPath f ds = some p)
    (hne : ∀ nm ∈ headerCells f ds y1 (colRange x1 x2), nm ≠ "") :
    getTableFieldsOrder f o = .ok (headerCells f ds y1 (colRange x1 x2), o) := by
  unfold getTableFieldsOrder
  rw [getPivotTableDataRange_memoized f o h1 h2]
  dsimp only
  rw [Ha]
  dsimp only [coord4]
  rw [readHeaderRow_ok f ds y1 p hsheet _ hne]

theorem getTableFieldsOrder_emptyHeader (f : File) (o : PivotTableOptions) (ds : String)
    (x1 y1 x2 y2 : Int) (p : String)
    (h1 : o.DataRange ≠ "") (h2 : o.pivotDataRange ≠ "")
    (Ha : adjustRange o.pivotDataRange = .ok (ds, [x1, y1, x2, y2]))
    (hsheet : getSheetXMLPath f ds = some p)
    (hempty : ∃ nm ∈ headerCells f ds y1 (colRange x1 x2), nm = "") :
    getTableFieldsOrder f o = .error .parameterInvalid := by
  unfold getTableFieldsOrder
  rw [getPivotTableDataRange_memoized f o h1 h2]
  dsimp only
  rw [Ha]
  dsimp only [coord4]
  rw [readHeaderRow_emptyCell f ds y1 p hsheet _ hempty]

theorem addPivotCache_eval (f : File) (o : PivotTableOptions) (ds : String)
    (x1 y1 x2 y2 : Int) (order : List String) (o2 : PivotTableOptions)
    (Ha : adjustRange o.pivotDataRange = .ok (ds, [x1, y1, x2, y2]))
    (Ho : getTableFieldsOrder f o = .ok (order, o2)) :
    addPivotCache f o = .ok (saveCachePart f o.pivotCacheXML
      { SaveData := false
        RefreshOnLoad := true
        CacheSource :=
          { «Type» := "worksheet"
            WorksheetSource :=
              if o.namedDataRange then { Name := o.DataRange }
              else
                { Ref := CoordinatesToCellName x1 y1 ++ ":" ++ CoordinatesToCellName x2 y2
                  Sheet := ds } }
        CacheFields :=
          { Count :=
              (order.map fun nm => ({ Name := nm, ContainsBlank := true } : xlsxCacheField)).length
            CacheField :=
              order.map fun nm => ({ Name := nm, ContainsBlank := true } : xlsxCacheField) } }) := by
  unfold addPivotCache
  rw [Ha]
  dsimp only
  rw [Ho]
  dsimp only [coord4]

theorem addPivotTableDef_ok_of (g : File) (cacheID : Int) (pivotTableID : Nat)
    (o : PivotTableOptions) (sh : String) (co : List Int)
    (h : adjustRange o.PivotTableRange = .ok (sh, co)) :
    ∃ fb, addPivotTable g cacheID pivotTableID o = .ok fb := by
  unfold addPivotTable
  rw [h]
  exact ⟨_, rfl⟩

theorem addPivotCache_emptyHeader (f : File) (o : PivotTableOptions) (ds : String)
    (x1 y1 x2 y2 : Int) (p : String)
    (h1 : o.DataRange ≠ "") (h2 : o.pivotDataRange ≠ "")
    (Ha : adjustRange o.pivotDataRange = .ok (ds, [x1, y1, x2, y2]))
    (hsheet : getSheetXMLPath f ds = some p)
    (hempty : ∃ nm ∈ headerCells f ds y1 (colRange x1 x2), nm = "") :
    addPivotCache f o = .error (.dataRange .parameterInvalid) := by
  unfold addPivotCache
  rw [Ha]
  dsimp only
  rw [getTableFieldsOrder_emptyHeader f o ds x1 y1 x2 y2 p h1 h2 Ha hsheet hempty]

theorem saveCachePart_read (f : File) (p : String) (pc : xlsxPivotCacheDefinition) :
    (saveCachePart f p pc).pivotCacheParts p = some pc := by
  show (if p = p then some pc else f.pivotCacheParts p) = some pc
  rw [if_pos rfl]

theorem AddPivotTable_ok_of_stages (f : File) (opts : PivotTableOptions)
    (path : String) (o' : PivotTableOptions) (fc : File) (sh : String) (co : List Int)
    (Hp : parseFormatPivotTableSet f opts = .ok (path, o'))
    (Hc : addPivotCache f
      { o' with
          pivotTableXML :=
            goReplaceAll ("../pivotTables/pivotTable" ++
              toString (countPivotTables f + 1) ++ ".xml") ".." "xl"
          pivotCacheXML :=
            "xl/pivotCache/pivotCacheDefinition" ++
              toString (countPivotCache f + 1) ++ ".xml" } = .ok fc)
    (Hr : adjustRange o'.PivotTableRange = .ok (sh, co)) :
    ∃ f', AddPivotTable f opts = .ok f' := by
  unfold AddPivotTable
  rw [Hp]
  dsimp only
  rw [Hc]
  dsimp only
  obtain ⟨fb, hfb⟩ := addPivotTableDef_ok_of
    (addRels
      (addWorkbookPivotCache
          (addRels fc workbookRelsPath SourceRelationshipPivotCache
              (trimPre ("xl/pivotCache/pivotCacheDefinition" ++
                toString (countPivotCache f + 1) ++ ".xml") "xl/") "").1
          (addRels fc workbookRelsPath SourceRelationshipPivotCache
              (trimPre ("xl/pivotCache/pivotCacheDefinition" ++
                toString (countPivotCache f + 1) ++ ".xml") "xl/") "").2).1
      ("xl/pivotTables/_rels/pivotTable" ++ toString (countPivotTables f + 1) ++ ".xml.rels")
      SourceRelationshipPivotCache
      ("../pivotCache/pivotCacheDefinition" ++ toString (countPivotCache f + 1) ++ ".xml")
      "").1
    ((addWorkbookPivotCache
        (addRels fc workbookRelsPath SourceRelationshipPivotCache
            (trimPre ("xl/pivotCache/pivotCacheDefinition" ++
              toString (countPivotCache f + 1) ++ ".xml") "xl/") "").1
        (addRels fc workbookRelsPath SourceRelationshipPivotCache
            (trimPre ("xl/pivotCache/pivotCacheDefinition" ++
              toString (countPivotCache f + 1) ++ ".xml") "xl/") "").2).2)
    (countPivotTables f + 1)
    { o' with
        pivotTableXML :=
          goReplaceAll ("../pivotTables/pivotTable" ++
            toString (countPivotTables f + 1) ++ ".xml") ".." "xl"
        pivotCacheXML :=
          "xl/pivotCache/pivotCacheDefinition" ++
            toString (countPivotCache f + 1) ++ ".xml" }
    sh co Hr
  exact ⟨_, by rw [hfb]; rfl⟩

/-- C5: for a data rectangle with at least two header columns, when every
header cell is non-empty `AddPivotTable` succeeds and emits a pivot cache
with exactly one cache field per header cell, named by the header values
in left-to-right order and each marked as containing blanks; when some
header cell is empty it fails with the data-range-wrapped
invalid-parameter error. -/
theorem AddPivotTable_cacheFieldsFromHeader (f : File) (opts : PivotTableOptions)
    (path : String) (o' : PivotTableOptions) (ds : String) (x1 y1 x2 y2 : Int)
    (Hp : parseFormatPivotTableSet f opts = .ok (path, o'))
    (Ha : adjustRange o'.pivotDataRange = .ok (ds, [x1, y1, x2, y2]))
    (HN : 2 ≤ (colRange x1 x2).length) :
    ((∀ nm ∈ headerCells f ds y1 (colRange x1 x2), nm ≠ "") →
      ∃ f', AddPivotTable f opts = .ok f' ∧
        ∃ pc, f'.pivotCacheParts
            ("xl/pivotCache/pivotCacheDefinition" ++
              toString (countPivotCache f + 1) ++ ".xml") = some pc ∧
          pc.CacheFields.CacheField.map (fun cf => cf.Name) =
            headerCells f ds y1 (colRange x1 x2) ∧
          pc.CacheFields.Count = (headerCells f ds y1 (colRange x1 x2)).length ∧
          ∀ cf ∈ pc.CacheFields.CacheField, cf.ContainsBlank = true) ∧
    ((∃ nm ∈ headerCells f ds y1 (colRange x1 x2), nm = "") →
      AddPivotTable f opts = .error (.dataRange .parameterInvalid)) := by
  obtain ⟨hadj, hName, hDR, hPTR, hRows, hCols, hData, hFil, hTX, hCX, hDRne, hPDRne,
    ds0, co0, Ha0, p0, hsheet0⟩ := parseFormatPivotTableSet_ok_props f opts path o' Hp
  have hds : ds0 = ds ∧ co0 = [x1, y1, x2, y2] := by
    have h := Ha0.symm.trans Ha
    injection h with h2
    rw [Prod.mk.injEq] at h2
    exact h2
  obtain ⟨hds1, hds2⟩ := hds
  subst hds1
  constructor
  · intro hne
    have Ho := getTableFieldsOrder_eval f
      { o' with
          pivotTableXML :=
            goReplaceAll ("../pivotTables/pivotTable" ++
              toString (countPivotTables f + 1) ++ ".xml") ".." "xl"
          pivotCacheXML :=
            "xl/pivotCache/pivotCacheDefinition" ++
              toString (countPivotCache f + 1) ++ ".xml" }
      ds0 x1 y1 x2 y2 p0 hDRne hPDRne Ha hsheet0 hne
    have Hc := addPivotCache_eval f
      { o' with
          pivotTableXML :=
            goReplaceAll ("../pivotTables/pivotTable" ++
              toString (countPivotTables f + 1) ++ ".xml") ".." "xl"
          pivotCacheXML :=
            "xl/pivotCache/pivotCacheDefinition" ++
              toString (countPivotCache f + 1) ++ ".xml" }
      ds0 x1 y1 x2 y2 _ _ Ha Ho
    obtain ⟨⟨sh, co⟩, hr⟩ := hadj
    have hr2 : adjustRange o'.PivotTableRange = .ok (sh, co) := by rw [hPTR]; exact hr
    obtain ⟨f', hok⟩ := AddPivotTable_ok_of_stages f opts path o' _ sh co Hp Hc hr2
    obtain ⟨path1, o1, fc1, ptd1, hp1, hc1, hcp1, _, _⟩ :=
      AddPivotTable_ok_decomp f opts f' hok
    have hpe : path1 = path ∧ o1 = o' := by
      have h := hp1.symm.trans Hp
      injection h with h2
      rw [Prod.mk.injEq] at h2
      exact h2
    obtain ⟨hpe1, hpe2⟩ := hpe
    subst hpe1
    subst hpe2
    have hfc0 := hc1.symm.trans Hc
    injection hfc0 with hfc
    refine ⟨f', hok, ?_⟩
    rw [hcp1, hfc]
    refine ⟨_, saveCachePart_read f _ _, ?_, ?_, ?_⟩
    · rw [List.map_map]
      rw [show ((fun cf : xlsxCacheField => cf.Name) ∘ fun nm =>
        ({ Name := nm, ContainsBlank := true } : xlsxCacheField)) = fun nm => nm from rfl]
      exact List.map_id' _
    · simp
    · intro cf hcf
      obtain ⟨nm, _, hmk⟩ := List.mem_map.mp hcf
      rw [← hmk]
  · intro hempty
    unfold AddPivotTable
    rw [Hp]
    dsimp only
    rw [addPivotCache_emptyHeader f
      { o' with
          pivotTableXML :=
            goReplaceAll ("../pivotTables/pivotTable" ++
              toString (countPivotTables f + 1) ++ ".xml") ".." "xl"
          pivotCacheXML :=
            "xl/pivotCache/pivotCacheDefinition" ++
              toString (countPivotCache f + 1) ++ ".xml" }
      ds0 x1 y1 x2 y2 p0 hDRne hPDRne Ha hsheet0 hempty]

/-- Document with an empty header cell in its data rectangle. -/
def exFileEmptyHeader : File :=
  { sheetPaths := [("Sheet1", "xl/worksheets/sheet1.xml")]
    cells := fun s c r => if s = "Sheet1" ∧ r = 1 ∧ c = 1 then "Month" else "" }

/-- Options over `exFileEmptyHeader`'s three-column rectangle. -/
def exOptsEmptyHeader : PivotTableOptions :=
  { DataRange := "Sheet1!A1:C3", PivotTableRange := "Sheet1!G2:M34" }

/-- Witness for C5: over `exFile` the four header cells become the four
cache fields in order, and over `exFileEmptyHeader` (whose second and
third header cells are empty) the call fails with the data-range-wrapped
invalid-parameter error. -/
theorem AddPivotTable_cacheFieldsFromHeader_witness :
    (∃ f' pc, AddPivotTable exFile exOpts = .ok f' ∧
      f'.pivotCacheParts
        ("xl/pivotCache/pivotCacheDefinition" ++
          toString (countPivotCache exFile + 1) ++ ".xml") = some pc ∧
      pc.CacheFields.CacheField.map (fun cf => cf.Name) =
        ["Month", "Year", "Sales", "Region"] ∧
      pc.CacheFields.Count = 4) ∧
    AddPivotTable exFileEmptyHeader exOptsEmptyHeader =
      .error (.dataRange .parameterInvalid) := by
  constructor
  · have h1 := AddPivotTable_cacheFieldsFromHeader exFile exOpts "xl/worksheets/sheet1.xml"
      exOptsResolved "Sheet1" 1 1 4 3 (by decide) (by decide) (by decide)
    obtain ⟨f', hok, pc, hpc, hnames, hcount, _⟩ := h1.1 (by decide)
    refine ⟨f', pc, hok, hpc, ?_, ?_⟩
    · rw [hnames]
      decide
    · rw [hcount]
      decide
  · have h2 := AddPivotTable_cacheFieldsFromHeader exFileEmptyHeader exOptsEmptyHeader
      "xl/worksheets/sheet1.xml"
      { exOptsEmptyHeader with pivotSheetName := "Sheet1", pivotDataRange := "Sheet1!A1:C3" }
      "Sheet1" 1 1 3 3 (by decide) (by decide) (by decide)
    exact h2.2 (by decide)

/-! ## Claim C10: empty table name synthesizes PivotTableN -/

/-- C10: an empty `opts.Name` is never rejected for its length, and on
success the emitted table definition is stored under the newly allocated
table path with name `PivotTable` followed by the allocated ID (the count
of existing pivot-table parts plus one). -/
theorem AddPivotTable_defaultName (f : File) (opts : PivotTableOptions)
    (h1 : opts.Name = "") :
    AddPivotTable f opts ≠ .error .nameLength ∧
    ∀ f', AddPivotTable f opts = .ok f' →
      ∃ ptd, f'.pivotTableParts
          (goReplaceAll ("../pivotTables/pivotTable" ++
            toString (countPivotTables f + 1) ++ ".xml") ".." "xl") = some ptd ∧
        ptd.Name = "PivotTable" ++ toString (countPivotTables f + 1) := by
  constructor
  · intro H
    rcases AddPivotTable_error_shape f opts _ H with h | ⟨e', he'⟩ | ⟨e', he'⟩
    · have hlen := parseFormatPivotTableSet_nameLength f opts h
      rw [h1] at hlen
      exact absurd hlen (by decide)
    · exact absurd he' (by simp)
    · exact absurd he' (by simp)
  · intro f' hok
    obtain ⟨path1, o1, fc1, ptd, hp1, hc1, _, hpt, hname⟩ :=
      AddPivotTable_ok_decomp f opts f' hok
    have hname1 : o1.Name = opts.Name :=
      (parseFormatPivotTableSet_ok_props f opts path1 o1 hp1).2.1
    refine ⟨ptd, hpt, ?_⟩
    rw [hname, hname1, h1, if_pos rfl]

/-- Witness for C10: `exOpts` carries no name, and the emitted definition
over `exFile` is stored as `PivotTable1`. -/
theorem AddPivotTable_defaultName_witness :
    ∃ f' ptd, AddPivotTable exFile exOpts = .ok f' ∧
      f'.pivotTableParts "xl/pivotTables/pivotTable1.xml" = some ptd ∧
      ptd.Name = "PivotTable1" := by
  have h := AddPivotTable_defaultName exFile exOpts rfl
  obtain ⟨f', hok⟩ : ∃ f', AddPivotTable exFile exOpts = .ok f' := ⟨_, rfl⟩
  obtain ⟨ptd, hpt, hname⟩ := h.2 f' hok
  refine ⟨f', ptd, hok, ?_, ?_⟩
  · have hpath : goReplaceAll ("../pivotTables/pivotTable" ++
        toString (countPivotTables exFile + 1) ++ ".xml") ".." "xl" =
        "xl/pivotTables/pivotTable1.xml" := by decide
    rw [← hpath]
    exact hpt
  · rw [hname]
    decide

/-! ## Claims C8 and C3: the deletion path -/

theorem findDelTargetInner_none (v : Relationship) (name : String)
    (opts : List PivotTableOptions) (h : ∀ opt ∈ opts, opt.Name ≠ name) :
    findDelTargetInner v name opts = none := by
  induction opts with
  | nil => rfl
  | cons opt rest ih =>
    unfold findDelTargetInner
    rw [if_neg]
    · exact ih fun o ho => h o (List.mem_cons_of_mem _ ho)
    · intro hc
      exact h opt (List.mem_cons_self opt rest) hc.2.1

theorem findDelTarget_none (name : String) (opts : List PivotTableOptions)
    (rels : List Relationship) (h : ∀ opt ∈ opts, opt.Name ≠ name) :
    findDelTarget name opts rels = none := by
  induction rels with
  | nil => rfl
  | cons v rest ih =>
    unfold findDelTarget
    rw [findDelTargetInner_none v name opts h]
    exact ih

/-- C8: deleting a table name that matches no pivot table on an existing
sheet returns the no-such-table error and leaves the document state
unchanged. -/
theorem DeletePivotTable_notFound (f : File) (sheet name : String) (sheetXML : String)
    (opts : List PivotTableOptions)
    (h1 : getSheetXMLPath f sheet = some sheetXML)
    (h2 : GetPivotTables f sheet = (opts, none))
    (h3 : ∀ opt ∈ opts, opt.Name ≠ name) :
    DeletePivotTable f sheet name = (f, some (.noExistTable name)) := by
  unfold DeletePivotTable
  rw [h1]
  dsimp only
  rw [h2]
  dsimp only
  rw [findDelTarget_none name opts _ h3]

/-- Witness for C8: over the document created by `AddPivotTable`, deleting
an unknown name returns the no-such-table error with the state returned
untouched. -/
theorem DeletePivotTable_notFound_witness :
    ∃ f', AddPivotTable exFile exOpts = .ok f' ∧
      DeletePivotTable f' "Sheet1" "nope" = (f', some (.noExistTable "nope")) := by
  refine ⟨(AddPivotTable exFile exOpts).toOption.getD {}, rfl, ?_⟩
  exact DeletePivotTable_notFound ((AddPivotTable exFile exOpts).toOption.getD {})
    "Sheet1" "nope" "xl/worksheets/sheet1.xml"
    (GetPivotTables ((AddPivotTable exFile exOpts).toOption.getD {}) "Sheet1").1
    (by decide) (by decide) (by decide)

theorem sheetRels_ne_workbookRels (x : String) :
    "xl/worksheets/_rels/" ++ x ++ ".rels" ≠ workbookRelsPath := by
  intro h
  have hd := congrArg String.data h
  rw [strAppend_data, strAppend_data] at hd
  have ht := congrArg (List.take 4) hd
  rw [List.take_append_of_le_length (by
    rw [List.length_append]
    have h20 : ("xl/worksheets/_rels/").data.length = 20 := by decide
    omega)] at ht
  rw [List.take_append_of_le_length (by decide)] at ht
  exact absurd ht (by decide)

/-- C3: deleting an existing (sheet, table) pair always removes the
sheet-to-table relationship, removes the workbook-level cache registration
(relationship plus registry entry, dropping the registry when it empties)
exactly when the cache part's cross-sheet reference count is 1, and leaves
the workbook registration intact when the count differs from 1. -/
theorem DeletePivotTable_sharedCacheRefcount (f : File) (sheet name : String)
    (sheetXML : String) (opts : List PivotTableOptions) (v : Relationship)
    (cx : String) (pcs : List xlsxPivotCache) (wrel : Relationship)
    (h1 : getSheetXMLPath f sheet = some sheetXML)
    (h2 : GetPivotTables f sheet = (opts, none))
    (h3 : ∃ opt, findDelTarget name opts
      (f.rels ("xl/worksheets/_rels/" ++ trimPre sheetXML "xl/worksheets/" ++ ".rels")) =
        some (v, opt) ∧ opt.pivotCacheXML = cx)
    (h4 : f.workbook.PivotCaches = some pcs)
    (h5 : (f.rels workbookRelsPath).find? (fun r =>
      r.«Type» == SourceRelationshipPivotCache &&
        r.Target == trimPre (trimPre cx "/") "xl/") = some wrel) :
    (DeletePivotTable f sheet name).2 = none ∧
    (DeletePivotTable f sheet name).1.rels
        ("xl/worksheets/_rels/" ++ trimPre sheetXML "xl/worksheets/" ++ ".rels") =
      (f.rels ("xl/worksheets/_rels/" ++ trimPre sheetXML "xl/worksheets/" ++ ".rels")).filter
        (fun r => r.ID ≠ v.ID) ∧
    (pivotCacheRefCount f cx = 1 →
      (DeletePivotTable f sheet name).1.rels workbookRelsPath =
        (f.rels workbookRelsPath).filter (fun x => x.ID ≠ wrel.ID) ∧
      (DeletePivotTable f sheet name).1.workbook.PivotCaches =
        (if (pcs.filter fun pc => pc.RID ≠ wrel.ID).isEmpty then none
         else some (pcs.filter fun pc => pc.RID ≠ wrel.ID))) ∧
    (pivotCacheRefCount f cx ≠ 1 →
      (DeletePivotTable f sheet name).1.workbook = f.workbook ∧
      (DeletePivotTable f sheet name).1.rels workbookRelsPath = f.rels workbookRelsPath) := by
  obtain ⟨opt, h3, hcx⟩ := h3
  subst hcx
  have hdist := sheetRels_ne_workbookRels (trimPre sheetXML "xl/worksheets/")
  have hd2 : (deleteWorkbookPivotCache f opt).2 = none := by
    unfold deleteWorkbookPivotCache deleteWorkbookRels
    rw [h5]
    dsimp only [updateRels]
    rw [h4]
  have hdw : (deleteWorkbookPivotCache f opt).1.workbook.PivotCaches =
      (if (pcs.filter fun pc => pc.RID ≠ wrel.ID).isEmpty then none
       else some (pcs.filter fun pc => pc.RID ≠ wrel.ID)) := by
    unfold deleteWorkbookPivotCache deleteWorkbookRels
    rw [h5]
    dsimp only [updateRels]
    rw [h4]
  have hdr : ∀ q, (deleteWorkbookPivotCache f opt).1.rels q =
      (if q = workbookRelsPath then
        (f.rels workbookRelsPath).filter fun x => x.ID ≠ wrel.ID
       else f.rels q) := by
    intro q
    unfold deleteWorkbookPivotCache deleteWorkbookRels
    rw [h5]
    dsimp only [updateRels]
    rw [h4]
  have hds : (deleteWorkbookPivotCache f opt).1.sheetPaths = f.sheetPaths := by
    unfold deleteWorkbookPivotCache deleteWorkbookRels
    rw [h5]
    dsimp only [updateRels]
    rw [h4]
  unfold DeletePivotTable
  rw [h1]
  dsimp only
  rw [h2]
  dsimp only
  rw [h3]
  dsimp only
  by_cases hrc : pivotCacheRefCount f opt.pivotCacheXML = 1
  · rw [if_pos hrc]
    have hgx : getSheetXMLPath (deleteWorkbookPivotCache f opt).1 sheet = some sheetXML := by
      unfold getSheetXMLPath
      rw [hds]
      exact h1
    unfold deleteSheetRelationships
    rw [hgx]
    dsimp only [updateRels]
    refine ⟨hd2, ?_, ?_, ?_⟩
    · rw [if_pos rfl, hdr, if_neg hdist]
    · intro _
      constructor
      · rw [if_neg (fun h => hdist h.symm), hdr, if_pos rfl]
      · exact hdw
    · intro hc
      exact absurd hrc hc
  · rw [if_neg hrc]
    have hgx : getSheetXMLPath f sheet = some sheetXML := h1
    unfold deleteSheetRelationships
    rw [hgx]
    dsimp only [updateRels]
    refine ⟨rfl, ?_, ?_, ?_⟩
    · rw [if_pos rfl]
    · intro hc
      exact absurd hc hrc
    · intro _
      exact ⟨rfl, by rw [if_neg (fun h => hdist h.symm)]⟩

/-- Two pivot tables on one sheet sharing a single cache part. -/
def sharedCacheFile : File :=
  { sheetPaths := [("Sheet1", "xl/worksheets/sheet1.xml")]
    cells := fun s c r =>
      if s = "Sheet1" ∧ r = 1 then (if c = 1 then "A" else if c = 2 then "B" else "")
      else ""
    rels := fun p =>
      if p = "xl/worksheets/_rels/sheet1.xml.rels" then
        [{ ID := "rId1", «Type» := SourceRelationshipPivotTable,
           Target := "../pivotTables/pivotTable1.xml" },
         { ID := "rId2", «Type» := SourceRelationshipPivotTable,
           Target := "../pivotTables/pivotTable2.xml" }]
      else if p = "xl/pivotTables/_rels/pivotTable1.xml.rels" then
        [{ ID := "rId1", «Type» := SourceRelationshipPivotCache,
           Target := "../pivotCache/pivotCacheDefinition1.xml" }]
      else if p = "xl/pivotTables/_rels/pivotTable2.xml.rels" then
        [{ ID := "rId1", «Type» := SourceRelationshipPivotCache,
           Target := "../pivotCache/pivotCacheDefinition1.xml" }]
      else if p = workbookRelsPath then
        [{ ID := "rId1", «Type» := SourceRelationshipPivotCache,
           Target := "pivotCache/pivotCacheDefinition1.xml" }]
      else []
    pivotTableParts := fun p =>
      if p = "xl/pivotTables/pivotTable1.xml" then
        some { Name := "PT1", LocationRef := "G2:H4" }
      else if p = "xl/pivotTables/pivotTable2.xml" then
        some { Name := "PT2", LocationRef := "J2:K4" }
      else none
    pivotCacheParts := fun p =>
      if p = "xl/pivotCache/pivotCacheDefinition1.xml" then
        some { CacheSource :=
          { «Type» := "worksheet", WorksheetSource := { Ref := "A1:B3", Sheet := "Sheet1" } } }
      else none
    workbook := { PivotCaches := some [{ CacheID := 2, RID := "rId1" }] } }

/-- One pivot table alone referencing the cache part. -/
def singleCacheFile : File :=
  { sharedCacheFile with
    rels := fun p =>
      if p = "xl/worksheets/_rels/sheet1.xml.rels" then
        [{ ID := "rId1", «Type» := SourceRelationshipPivotTable,
           Target := "../pivotTables/pivotTable1.xml" }]
      else if p = "xl/pivotTables/_rels/pivotTable1.xml.rels" then
        [{ ID := "rId1", «Type» := SourceRelationshipPivotCache,
           Target := "../pivotCache/pivotCacheDefinition1.xml" }]
      else if p = workbookRelsPath then
        [{ ID := "rId1", «Type» := SourceRelationshipPivotCache,
           Target := "pivotCache/pivotCacheDefinition1.xml" }]
      else []
    pivotTableParts := fun p =>
      if p = "xl/pivotTables/pivotTable1.xml" then
        some { Name := "PT1", LocationRef := "G2:H4" }
      else none }

/-- Witness for C3: deleting one of two tables sharing the cache leaves
the workbook registration intact; deleting the lone table referencing the
cache removes the registration and empties the registry. -/
theorem DeletePivotTable_sharedCacheRefcount_witness :
    pivotCacheRefCount sharedCacheFile "xl/pivotCache/pivotCacheDefinition1.xml" = 2 ∧
    (DeletePivotTable sharedCacheFile "Sheet1" "PT1").2 = none ∧
    (DeletePivotTable sharedCacheFile "Sheet1" "PT1").1.workbook = sharedCacheFile.workbook ∧
    (DeletePivotTable sharedCacheFile "Sheet1" "PT1").1.rels
        "xl/worksheets/_rels/sheet1.xml.rels" =
      [{ ID := "rId2", «Type» := SourceRelationshipPivotTable,
         Target := "../pivotTables/pivotTable2.xml" }] ∧
    pivotCacheRefCount singleCacheFile "xl/pivotCache/pivotCacheDefinition1.xml" = 1 ∧
    (DeletePivotTable singleCacheFile "Sheet1" "PT1").1.workbook.PivotCaches = none ∧
    (DeletePivotTable singleCacheFile "Sheet1" "PT1").1.rels workbookRelsPath = [] := by
  have hA := DeletePivotTable_sharedCacheRefcount sharedCacheFile "Sheet1" "PT1"
    "xl/worksheets/sheet1.xml" (GetPivotTables sharedCacheFile "Sheet1").1
    { ID := "rId1", «Type» := SourceRelationshipPivotTable,
      Target := "../pivotTables/pivotTable1.xml" }
    "xl/pivotCache/pivotCacheDefinition1.xml"
    [{ CacheID := 2, RID := "rId1" }]
    { ID := "rId1", «Type» := SourceRelationshipPivotCache,
      Target := "pivotCache/pivotCacheDefinition1.xml" }
    (by decide) (by decide) ⟨_, rfl, rfl⟩ rfl (by decide)
  have hB := DeletePivotTable_sharedCacheRefcount singleCacheFile "Sheet1" "PT1"
    "xl/worksheets/sheet1.xml" (GetPivotTables singleCacheFile "Sheet1").1
    { ID := "rId1", «Type» := SourceRelationshipPivotTable,
      Target := "../pivotTables/pivotTable1.xml" }
    "xl/pivotCache/pivotCacheDefinition1.xml"
    [{ CacheID := 2, RID := "rId1" }]
    { ID := "rId1", «Type» := SourceRelationshipPivotCache,
      Target := "pivotCache/pivotCacheDefinition1.xml" }
    (by decide) (by decide) ⟨_, rfl, rfl⟩ rfl (by decide)
  refine ⟨by decide, hA.1, ?_, ?_, by decide, ?_, ?_⟩
  · have h := (hA.2.2.2 (by decide)).1
    exact h
  · exact (hA.2.1).trans (by decide)
  · exact ((hB.2.2.1 (by decide)).2).trans (by decide)
  · exact ((hB.2.2.1 (by decide)).1).trans (by decide)

end Excelize
